import Mathlib

/-!
Verification of the HogQL name-and-type resolver (`posthog/hogql/resolver.py`).

The development shallowly embeds the resolver: Python AST node classes become
inductive types, the mutable `Resolver` visitor becomes a state-passing
function over an explicit resolver state, exceptions become an `Except`
result, and the visitor's unbounded recursion is driven by a fuel parameter
(`RFail.fuel` marks fuel exhaustion; it corresponds to no behaviour of the
source and is distinct from every raised error).

Collaborator code that the repository snapshot does not contain
(`posthog/hogql/ast.py`, `posthog/hogql/resolver_utils.py`, the database
models) is modelled from the specification; every such definition carries a
doc comment starting with `Modelled from the spec:`.
-/

/-- Constant types (`posthog/hogql/ast.py` `ConstantType` subfamily, as used by
`resolve_constant_data_type`): scalar types plus homogeneous arrays and
positional tuples. -/
inductive ConstantType where
  | unknown
  | boolean
  | integer
  | float
  | string
  | date
  | datetime
  | uuid
  | array (item : ConstantType)
  | tuple (items : List ConstantType)
deriving Repr

mutual

/-- Boolean equality on constant types, mirroring the source's comparison of
`str(...)` renderings (the renderings are injective on this family). -/
def ConstantType.beq : ConstantType → ConstantType → Bool
  | .unknown, .unknown => true
  | .boolean, .boolean => true
  | .integer, .integer => true
  | .float, .float => true
  | .string, .string => true
  | .date, .date => true
  | .datetime, .datetime => true
  | .uuid, .uuid => true
  | .array a, .array b => a.beq b
  | .tuple a, .tuple b => ConstantType.beqList a b
  | _, _ => false

/-- Pointwise `ConstantType.beq` on lists. -/
def ConstantType.beqList : List ConstantType → List ConstantType → Bool
  | [], [] => true
  | a :: as', b :: bs' => a.beq b && ConstantType.beqList as' bs'
  | _, _ => false

end

instance : BEq ConstantType := ⟨ConstantType.beq⟩

/-- Python literal values, as discriminated by `resolve_constant_data_type`.
`other` stands for any value of an unsupported runtime type and carries that
type's name. -/
inductive PyConst where
  | none
  | bool (b : Bool)
  | int (n : Int)
  | float
  | str (s : String)
  | list (items : List PyConst)
  | tuple (items : List PyConst)
  | datetime
  | date
  | uuid
  | other (typeName : String)
deriving Repr

/-- In Python, `bool` is a subclass of `int`: `isinstance(True, int)` holds.
`resolve_constant_data_type` therefore must test booleans before integers. -/
def isinstance_int : PyConst → Bool
  | .bool _ => true
  | .int _ => true
  | _ => false

/-- Failures of the embedded resolver. `queryError`, `resolutionError` and
`impossibleAST` are the source's `QueryError`, `ResolutionError` and
`ImpossibleASTError`; `indexError` is an uncaught Python `IndexError`;
`fuel` marks fuel exhaustion of the embedding and corresponds to no source
behaviour. -/
inductive RFail where
  | fuel
  | queryError (msg : String)
  | resolutionError (msg : String)
  | impossibleAST (msg : String)
  | indexError
deriving Repr

/-- Result type of embedded computations. -/
abbrev Res (α : Type) := Except RFail α

/-- The set of distinct classifications of a list literal's elements
(the source's `unique_types` set comprehension), built by a left fold that
keeps the first occurrence of each classification. -/
def uniqueConstantTypes (tys : List ConstantType) : List ConstantType :=
  tys.foldl (fun acc t => if acc.any (fun u => u == t) then acc else t :: acc) []

mutual

/-- `resolve_constant_data_type` (resolver.py lines 30-54): classify a literal
value as a constant type. Booleans are a separate constructor here, but the
source's test order matters in Python because of `isinstance_int`; the list
case builds the set of element classifications and uses the first element's
classification when the set is a singleton, `Unknown` otherwise (also for the
empty list, whose set is empty). The source re-evaluates
`resolve_constant_data_type(constant[0])` in the singleton case; the function
is pure, so that equals the already-computed first classification. Unsupported
shapes raise `ImpossibleAST`. -/
def resolve_constant_data_type : PyConst → Res ConstantType
  | .none => .ok .unknown
  | .bool _ => .ok .boolean
  | .int _ => .ok .integer
  | .float => .ok .float
  | .str _ => .ok .string
  | .list items => do
      let tys ← resolve_constant_list items
      match tys, (uniqueConstantTypes tys).length == 1 with
      | t0 :: _, true => .ok (.array t0)
      | _, _ => .ok (.array .unknown)
  | .tuple items => do
      let tys ← resolve_constant_list items
      .ok (.tuple tys)
  | .datetime => .ok .datetime
  | .date => .ok .date
  | .uuid => .ok .uuid
  | .other typeName => .error (.impossibleAST ("Unsupported constant type: " ++ typeName))

/-- Classify each element of a list of literals, propagating the first raised
error (as the source's set comprehension over the elements does). -/
def resolve_constant_list : List PyConst → Res (List ConstantType)
  | [] => .ok []
  | c :: cs => do
      let t ← resolve_constant_data_type c
      let ts ← resolve_constant_list cs
      .ok (t :: ts)

end

/-- Comparison operators (`ast.CompareOperationOp`). -/
inductive CompareOp where
  | Eq | NotEq | Gt | GtEq | Lt | LtEq
  | Like | ILike | NotLike | NotILike
  | Regex | IRegex | NotRegex | NotIRegex
  | In | NotIn | GlobalIn | GlobalNotIn
  | InCohort | NotInCohort
deriving DecidableEq, Repr

/-- Resolution dialect: `"clickhouse"` is the strict dialect, `"hogql"` the
lenient one. -/
inductive Dialect where
  | clickhouse
  | hogql
deriving DecidableEq, Repr

/-- The kind of a CTE (`ast.CTE.cte_type`): the source only ever tests
`cte.cte_type == "subquery"`; `column` is the expression kind ("used as a
value"). -/
inductive CTEKind where
  | subquery
  | column
deriving DecidableEq, Repr

mutual

/-- Expression AST nodes (`posthog/hogql/ast.py`), restricted to the node
kinds exercised by the resolver behaviour under verification: constants,
fields, aliases, boolean connectives, comparisons, SELECT queries and
FROM/JOIN nodes. Every node carries its optional resolved `ty`
(`Expr.type`); `field` additionally carries the `start`/`end` source offsets
used for diagnostics. -/
inductive Expr where
  | constant (ty : Option HType) (value : PyConst)
  | field (ty : Option HType) (start stop : Option Nat) (chain : List String)
  | aliasE (ty : Option HType) (al : String) (expr : Expr) (hidden : Bool)
  | andE (ty : Option HType) (exprs : List Expr)
  | orE (ty : Option HType) (exprs : List Expr)
  | notE (ty : Option HType) (expr : Expr)
  | compareE (ty : Option HType) (op : CompareOp) (left right : Expr)
  | selectQ (ty : Option HType) (q : SelectData)
  | joinE (ty : Option HType) (j : JoinData)

/-- The clauses of a `SelectQuery` node that the resolver behaviour under
verification reads or writes (`ctes`, the SELECT list, `select_from`,
`where`, `view_name`). -/
inductive SelectData where
  | mk (ctes : Option (List CTE)) (select : List Expr) (selectFrom : Option Expr)
      (whereE : Option Expr) (viewName : Option String)

/-- A `WITH`-clause common table expression (`ast.CTE`): name, body and kind. -/
inductive CTE where
  | mk (name : String) (expr : Expr) (cteType : CTEKind)

/-- A `JoinExpr` node: the joined `table` (a field or a sub-select), its
optional alias, the join kind string, the chained `next_join` and the
`ON`/`USING` constraint. -/
inductive JoinData where
  | mk (table : Expr) (al : Option String) (joinType : Option String)
      (nextJoin : Option Expr) (constraint : Option JoinConstraint)

/-- An `ast.JoinConstraint`: constrained expression plus `"ON"` or `"USING"`. -/
inductive JoinConstraint where
  | mk (expr : Expr) (constraintType : String)

/-- Resolver types (`posthog/hogql/ast.py` `Type` subclasses) as used by the
resolver: scalar constant types (wrapped via `constT`), table kinds, select
kinds, field kinds and placeholder kinds. -/
inductive HType where
  | constT (c : ConstantType)
  | tableT (table : DBTable)
  | lazyTableT (table : DBTable)
  | tableAliasT (al : String) (tableType : HType)
  | selectQueryT (scope : SelectScope)
  | selectUnionT (types : List HType)
  | selectQueryAliasT (al : String) (selectQueryType : HType)
  | selectViewT (al : String) (viewName : String) (selectQueryType : HType)
  | fieldT (name : String) (tableType : HType)
  | propertyT (chain : List String) (fieldType : HType)
  | expressionFieldT (name : String) (expr : Expr) (tableType : HType)
  | fieldAliasT (al : String) (type : HType)
  | fieldTraverserT (chain : List String) (tableType : HType)
  | asteriskT (tableType : HType)
  | unresolvedFieldT (name : String)

/-- An `ast.SelectQueryType`: a SELECT query's scope and its externally
visible column list. `columns` values are the registered expressions' optional
types, exactly what `node_type.columns[alias] = new_expr.type` stores. -/
inductive SelectScope where
  | mk (aliases : List (String × HType)) (columns : List (String × Option HType))
      (tables : List (String × HType)) (anonymousTables : List HType)
      (ctes : List CTE)

/-- Modelled from the spec: a catalog `TableDescriptor` (`database.get_table`
result; the database model classes are not under `src/`). It carries the
ordered column map, the `get_asterisk()` enumeration, and the kind
discriminators the resolver tests with `isinstance`: `events`, `s3`,
function-call and lazy tables. -/
inductive DBTable where
  | mk (name : String) (fields : List (String × DBField)) (asteriskKeys : List String)
      (isEvents isS3 isFunctionCall isLazy : Bool)

/-- Modelled from the spec: a schema-declared column of a catalog table —
a plain scalar column, a JSON (`StringJSONDatabaseField`) column, a
schema-defined expression field, or a field traverser. -/
inductive DBField where
  | scalar (constType : ConstantType)
  | json
  | expressionField (expr : Expr)
  | traverser (chain : List String)

end

/-- The optional resolved type attached to an expression node (`node.type`). -/
def Expr.ty : Expr → Option HType
  | .constant ty _ => ty
  | .field ty _ _ _ => ty
  | .aliasE ty _ _ _ => ty
  | .andE ty _ => ty
  | .orE ty _ => ty
  | .notE ty _ => ty
  | .compareE ty _ _ _ => ty
  | .selectQ ty _ => ty
  | .joinE ty _ => ty

/-- `type(node).__name__` for expression nodes. -/
def Expr.className : Expr → String
  | .constant _ _ => "Constant"
  | .field _ _ _ _ => "Field"
  | .aliasE _ _ _ _ => "Alias"
  | .andE _ _ => "And"
  | .orE _ _ => "Or"
  | .notE _ _ => "Not"
  | .compareE _ _ _ _ => "CompareOperation"
  | .selectQ _ _ => "SelectQuery"
  | .joinE _ _ => "JoinExpr"

/-- `type(...).__name__` for constant types. -/
def ConstantType.className : ConstantType → String
  | .unknown => "UnknownType"
  | .boolean => "BooleanType"
  | .integer => "IntegerType"
  | .float => "FloatType"
  | .string => "StringType"
  | .date => "DateType"
  | .datetime => "DateTimeType"
  | .uuid => "UUIDType"
  | .array _ => "ArrayType"
  | .tuple _ => "TupleType"

/-- `type(node.type).__name__` for resolver types. -/
def HType.className : HType → String
  | .constT c => c.className
  | .tableT _ => "TableType"
  | .lazyTableT _ => "LazyTableType"
  | .tableAliasT _ _ => "TableAliasType"
  | .selectQueryT _ => "SelectQueryType"
  | .selectUnionT _ => "SelectUnionQueryType"
  | .selectQueryAliasT _ _ => "SelectQueryAliasType"
  | .selectViewT _ _ _ => "SelectViewType"
  | .fieldT _ _ => "FieldType"
  | .propertyT _ _ => "PropertyType"
  | .expressionFieldT _ _ _ => "ExpressionFieldType"
  | .fieldAliasT _ _ => "FieldAliasType"
  | .fieldTraverserT _ _ => "FieldTraverserType"
  | .asteriskT _ => "AsteriskType"
  | .unresolvedFieldT _ => "UnresolvedFieldType"

/-- Field projections of `SelectScope`. -/
def SelectScope.aliases : SelectScope → List (String × HType)
  | .mk a _ _ _ _ => a

def SelectScope.columns : SelectScope → List (String × Option HType)
  | .mk _ c _ _ _ => c

def SelectScope.tables : SelectScope → List (String × HType)
  | .mk _ _ t _ _ => t

def SelectScope.anonymousTables : SelectScope → List HType
  | .mk _ _ _ a _ => a

def SelectScope.ctes : SelectScope → List CTE
  | .mk _ _ _ _ c => c

def SelectScope.setAliases : SelectScope → List (String × HType) → SelectScope
  | .mk _ c t a cs, al => .mk al c t a cs

def SelectScope.setColumns : SelectScope → List (String × Option HType) → SelectScope
  | .mk al _ t a cs, c => .mk al c t a cs

def SelectScope.setTables : SelectScope → List (String × HType) → SelectScope
  | .mk al c _ a cs, t => .mk al c t a cs

def SelectScope.setAnonymousTables : SelectScope → List HType → SelectScope
  | .mk al c t _ cs, a => .mk al c t a cs

/-- Field projections of `CTE`. -/
def CTE.name : CTE → String
  | .mk n _ _ => n

def CTE.expr : CTE → Expr
  | .mk _ e _ => e

def CTE.cteType : CTE → CTEKind
  | .mk _ _ k => k

/-- Field projections of `SelectData`. -/
def SelectData.ctes : SelectData → Option (List CTE)
  | .mk c _ _ _ _ => c

def SelectData.select : SelectData → List Expr
  | .mk _ s _ _ _ => s

def SelectData.selectFrom : SelectData → Option Expr
  | .mk _ _ f _ _ => f

def SelectData.whereE : SelectData → Option Expr
  | .mk _ _ _ w _ => w

def SelectData.viewName : SelectData → Option String
  | .mk _ _ _ _ v => v

/-- Field projections of `JoinData`. -/
def JoinData.table : JoinData → Expr
  | .mk t _ _ _ _ => t

def JoinData.al : JoinData → Option String
  | .mk _ a _ _ _ => a

def JoinData.joinType : JoinData → Option String
  | .mk _ _ j _ _ => j

def JoinData.nextJoin : JoinData → Option Expr
  | .mk _ _ _ n _ => n

def JoinData.constraint : JoinData → Option JoinConstraint
  | .mk _ _ _ _ c => c

/-- Field projections of `JoinConstraint`. -/
def JoinConstraint.expr : JoinConstraint → Expr
  | .mk e _ => e

def JoinConstraint.constraintType : JoinConstraint → String
  | .mk _ t => t

/-- Field projections of `DBTable`. -/
def DBTable.name : DBTable → String
  | .mk n _ _ _ _ _ _ => n

def DBTable.fields : DBTable → List (String × DBField)
  | .mk _ f _ _ _ _ _ => f

def DBTable.asteriskKeys : DBTable → List String
  | .mk _ _ a _ _ _ _ => a

def DBTable.isEvents : DBTable → Bool
  | .mk _ _ _ e _ _ _ => e

def DBTable.isS3 : DBTable → Bool
  | .mk _ _ _ _ s _ _ => s

def DBTable.isFunctionCall : DBTable → Bool
  | .mk _ _ _ _ _ f _ => f

def DBTable.isLazy : DBTable → Bool
  | .mk _ _ _ _ _ _ l => l

/-- Look a key up in an association list (Python `dict` read). -/
def lookupPair {α : Type} (l : List (String × α)) (k : String) : Option α :=
  match l.find? (fun p => p.1 == k) with
  | some p => some p.2
  | none => none

/-- Write a key in an association list, keeping a present key's position and
appending an absent key at the end (Python `dict` insertion order). -/
def setPair {α : Type} (l : List (String × α)) (k : String) (v : α) : List (String × α) :=
  match l with
  | [] => [(k, v)]
  | (k', v') :: rest => if k' == k then (k, v) :: rest else (k', v') :: setPair rest k v

/-- A recorded diagnostic (`context.add_error` / `context.add_notice`
payload): source offsets plus message. -/
structure Diag where
  start : Option Nat
  stop : Option Nat
  message : String
deriving Repr, DecidableEq

/-- Modelled from the spec: the opaque schema catalog (`context.database`),
"capable of resolving a table name to a TableDescriptor". -/
structure Database where
  tables : List (String × DBTable)

/-- `Database.get_table`: resolve a table name to its descriptor. -/
def Database.get_table (db : Database) (name : String) : Option DBTable :=
  lookupPair db.tables name

/-- The slice of `HogQLContext` the resolver reads and writes: the diagnostic
sinks, the catalog, `modifiers.inCohortVia`, and the cohort macro expander
(`cohort_query_node`, an opaque AST-to-AST transformer provided by the host). -/
structure Ctx where
  errors : List Diag
  notices : List Diag
  database : Database
  inCohortVia : String
  cohortQueryNode : Expr → Expr

/-- `context.add_error(start=..., end=..., message=...)`. -/
def Ctx.add_error (c : Ctx) (start stop : Option Nat) (message : String) : Ctx :=
  { c with errors := c.errors ++ [⟨start, stop, message⟩] }

/-- `context.add_notice(start=..., end=..., message=...)`. -/
def Ctx.add_notice (c : Ctx) (start stop : Option Nat) (message : String) : Ctx :=
  { c with notices := c.notices ++ [⟨start, stop, message⟩] }

/-- The `Resolver`'s mutable state: the scope stack (`self.scopes`, top of
stack at the HEAD of the list here, where the Python list keeps the top at its
end), the CTE-expansion counter, the context and the dialect. -/
structure RState where
  scopes : List SelectScope
  cteCounter : Nat
  ctx : Ctx
  dialect : Dialect

/-- `self.scopes.append(scope)`. -/
def RState.pushScope (s : RState) (scope : SelectScope) : RState :=
  { s with scopes := scope :: s.scopes }

/-- Replace the top scope (Python mutates the object at `self.scopes[-1]`). -/
def RState.updateTopScope (s : RState) (f : SelectScope → SelectScope) : RState :=
  match s.scopes with
  | [] => s
  | scope :: rest => { s with scopes := f scope :: rest }

/-- Modelled from the spec: `lookup_cte_by_name`
(`posthog/hogql/resolver_utils.py`, not under `src/`). Per §4.2 of the spec,
"CTE lookup ... walks the full stack from top to bottom (CTEs defined in an
enclosing query are visible to inner queries)". -/
def lookup_cte_by_name (scopes : List SelectScope) (name : String) : Option CTE :=
  match scopes with
  | [] => none
  | scope :: rest =>
    match scope.ctes.find? (fun c => c.name == name) with
    | some c => some c
    | none => lookup_cte_by_name rest name

/-- Modelled from the spec: resolve a table-kind type back to its catalog
descriptor (`BaseTableType.resolve_database_table`), unwrapping aliases. -/
def resolveDatabaseTable : HType → Option DBTable
  | .tableT t => some t
  | .lazyTableT t => some t
  | .tableAliasT _ inner => resolveDatabaseTable inner
  | _ => none

/-- Modelled from the spec: turn a schema-declared column of `owner` into a
resolver type — a plain or JSON column becomes a `Field(name, owner)`, an
expression field becomes `ExpressionField(name, expr)`, and a traverser
becomes a `FieldTraverser(chain, owner)` (spec §3, type variants). -/
def dbFieldType (owner : HType) (name : String) : DBField → HType
  | .scalar _ => .fieldT name owner
  | .json => .fieldT name owner
  | .expressionField e => .expressionFieldT name e owner
  | .traverser chain => .fieldTraverserT chain owner

/-- Modelled from the spec: the underlying `SelectQuery` scope of a
select-kind type, walking through aliases and views and taking a union's
first branch (spec §4.5). -/
def selectScopeOf : HType → Option SelectScope
  | .selectQueryT sc => some sc
  | .selectQueryAliasT _ inner => selectScopeOf inner
  | .selectViewT _ _ inner => selectScopeOf inner
  | .selectUnionT (t :: _) => selectScopeOf t
  | _ => none

/-- Modelled from the spec: `Type.get_child(name, context)`
(`posthog/hogql/ast.py`, not under `src/`). "Each ordinary step calls
`get_child(segment)` on the current type; a null result fails" (§4.6).
Table kinds expose their schema-declared columns as `Field`,
`ExpressionField` or `FieldTraverser` types owned by the (possibly aliased)
table kind; select kinds expose their exported columns as `Field` types;
a JSON column's child is a `Property` path and a property extends its own
chain; the lenient dialect's `UnresolvedField` placeholder stays a
placeholder, "so downstream tooling can still reason about partial ASTs"
(§1); a field alias is transparent. -/
def getChild : HType → String → Option HType
  | .tableT t, name =>
      (lookupPair t.fields name).map (dbFieldType (.tableT t) name)
  | .lazyTableT t, name =>
      (lookupPair t.fields name).map (dbFieldType (.lazyTableT t) name)
  | .tableAliasT a inner, name =>
      match resolveDatabaseTable inner with
      | some t => (lookupPair t.fields name).map (dbFieldType (.tableAliasT a inner) name)
      | none => none
  | .selectQueryT sc, name =>
      if (lookupPair sc.columns name).isSome then some (.fieldT name (.selectQueryT sc)) else none
  | .selectQueryAliasT a inner, name =>
      match selectScopeOf inner with
      | some sc => if (lookupPair sc.columns name).isSome then some (.fieldT name (.selectQueryAliasT a inner)) else none
      | none => none
  | .selectViewT a vn inner, name =>
      match selectScopeOf inner with
      | some sc => if (lookupPair sc.columns name).isSome then some (.fieldT name (.selectViewT a vn inner)) else none
      | none => none
  | .fieldT n owner, name =>
      match resolveDatabaseTable owner with
      | some t =>
          match lookupPair t.fields n with
          | some .json => some (.propertyT [name] (.fieldT n owner))
          | _ => none
      | none => none
  | .propertyT chain f, name => some (.propertyT (chain ++ [name]) f)
  | .fieldAliasT _ inner, name => getChild inner name
  | .unresolvedFieldT n, _ => some (.unresolvedFieldT n)
  | _, _ => none

/-- Modelled from the spec: `lookup_field_by_name`
(`posthog/hogql/resolver_utils.py`, not under `src/`). Per §4.6 step 3: look
the head token up "among (in priority): aliases of the current scope, columns
exposed by each registered table, schema-declared expression-fields and
traversers. A name visible in multiple tables is ambiguous and fails." -/
def lookup_field_by_name (scope : SelectScope) (name : String) : Res (Option HType) :=
  match lookupPair scope.aliases name with
  | some t => .ok (some t)
  | none =>
    let owners := (scope.tables.map (fun p => p.2)) ++ scope.anonymousTables
    match owners.filter (fun o => (getChild o name).isSome) with
    | [] => .ok none
    | [o] => .ok (getChild o name)
    | _ => .error (.queryError ("Ambiguous query. Found multiple sources for field: " ++ name))

/-- Modelled from the spec: `ConstantType.print_type` rendering used by the
informational notice of `visit_field`. -/
def ConstantType.printType : ConstantType → String
  | .unknown => "Unknown"
  | .boolean => "Boolean"
  | .integer => "Integer"
  | .float => "Float"
  | .string => "String"
  | .date => "Date"
  | .datetime => "DateTime"
  | .uuid => "UUID"
  | .array _ => "Array"
  | .tuple _ => "Tuple"

/-- Modelled from the spec: `FieldType.resolve_constant_type` — the constant
type of a resolved column, read from the schema (a JSON column prints as
`String`; anything unresolvable is `Unknown`). -/
def field_constant_type : HType → ConstantType
  | .fieldT n owner =>
    match resolveDatabaseTable owner with
    | some t =>
      match lookupPair t.fields n with
      | some (.scalar c) => c
      | some .json => .string
      | _ => .unknown
    | none => .unknown
  | _ => .unknown

/-- `node.type.table` for table kinds (`TableType.table` /
`LazyTableType.table`); a single Python attribute access, so aliases are not
unwrapped here. -/
def tableOf : HType → Option DBTable
  | .tableT t => some t
  | .lazyTableT t => some t
  | _ => none

/-- `isinstance(t, ast.BaseTableType)` for the table kinds of this model. -/
def isBaseTableType : HType → Bool
  | .tableT _ => true
  | .lazyTableT _ => true
  | .tableAliasT _ _ => true
  | _ => false

/-- Strip `Alias` wrappers (`while isinstance(node, ast.Alias): node = node.expr`). -/
def unwrapAlias : Expr → Expr
  | .aliasE _ _ e _ => unwrapAlias e
  | e => e

/-- `Resolver._is_events_table` (resolver.py lines 680-688): whether an
expression resolves to a column of the `events` catalog table. -/
def is_events_table (node : Expr) : Bool :=
  match unwrapAlias node with
  | .field (some (.fieldT _ tt)) _ _ _ =>
    match tt with
    | .tableAliasT _ inner =>
      match tableOf inner with
      | some tb => tb.isEvents
      | none => false
    | .tableT tb => tb.isEvents
    | _ => false
  | _ => false

/-- `Resolver._is_s3_cluster` (resolver.py lines 690-702): whether an
expression is a SELECT whose FROM source is an `s3` external table. -/
def is_s3_cluster (node : Expr) : Bool :=
  match unwrapAlias node with
  | .selectQ _ sd =>
    match sd.selectFrom with
    | some fromE =>
      match fromE.ty with
      | some t =>
        if isBaseTableType t then
          match t with
          | .tableAliasT _ inner =>
            match tableOf inner with
            | some tb => tb.isS3
            | none => false
          | .tableT tb => tb.isS3
          | _ => false
        else false
      | none => false
    | none => false
  | _ => false

/-- `Resolver._is_next_s3` (resolver.py lines 704-709): whether the next join
node resolved to an aliased `s3` external table. -/
def is_next_s3 : Option Expr → Bool
  | Option.none => false
  | some j =>
    match j.ty with
    | some (.tableAliasT _ inner) =>
      match tableOf inner with
      | some tb => tb.isS3
      | none => false
    | _ => false

/-- The global-join test of `visit_join_expr` (resolver.py lines 330-333):
events as the current source and an s3 table as the next join. -/
def joinIsGlobal (nodeType : HType) (next : Option Expr) : Bool :=
  match nodeType with
  | .tableAliasT _ tt =>
    (match tableOf tt with
     | some tb => tb.isEvents
     | none => false) && is_next_s3 next
  | t =>
    (match tableOf t with
     | some tb => tb.isEvents
     | none => false) && is_next_s3 next

/-- `node.next_join.join_type = "GLOBAL JOIN"`: overwrite the join type of an
optional join node. -/
def setNextJoinType (next : Option Expr) (jt : Option String) : Option Expr :=
  match next with
  | some (.joinE ty (.mk table al _ nextJoin constraint)) =>
      some (.joinE ty (.mk table al jt nextJoin constraint))
  | e => e

/-- The exported name of a resolved SELECT item (resolver.py lines 171-180):
the alias of a `FieldAliasType`, the name of a `FieldType` or
`ExpressionFieldType`, or an `Alias` node's alias; otherwise none. -/
def exportedAlias (e : Expr) : Option String :=
  match e.ty with
  | some (.fieldAliasT a _) => some a
  | some (.fieldT n _) => some n
  | some (.expressionFieldT n _ _) => some n
  | _ =>
    match e with
    | .aliasE _ a _ _ => some a
    | _ => Option.none

/-- Whether a SELECT item is a hidden `Alias` node. -/
def isHiddenAlias : Expr → Bool
  | .aliasE _ _ _ h => h
  | _ => false

/-- One step of the column-registration loop of `visit_select_query`
(resolver.py lines 169-190), folding over `(columns,
columns_with_visible_alias)`: a falsy (absent or empty) exported name
registers nothing; a hidden `Alias` writes only when the name has no entry or
its entry is not visible; everything else always writes and marks the name
visible. -/
def registerColumn (acc : List (String × Option HType) × List (String × Bool)) (e : Expr) :
    List (String × Option HType) × List (String × Bool) :=
  let (cols, vis) := acc
  match exportedAlias e with
  | Option.none => acc
  | some a =>
    if a == "" then acc
    else if isHiddenAlias e then
      if (lookupPair cols a).isNone || !((lookupPair vis a).getD false) then
        (setPair cols a e.ty, setPair vis a false)
      else acc
    else (setPair cols a e.ty, setPair vis a true)

/-- The whole column-registration loop over the resolved SELECT items. -/
def registerColumns (nodes : List Expr) : List (String × Option HType) × List (String × Bool) :=
  nodes.foldl registerColumn ([], [])

/-- The select kinds accepted by the second branch of `_asterisk_columns`. -/
def isSelectKind : HType → Bool
  | .selectQueryT _ => true
  | .selectUnionT _ => true
  | .selectQueryAliasT _ _ => true
  | .selectViewT _ _ _ => true
  | _ => false

/-- The unwrapping loop of `_asterisk_columns` (resolver.py line 240):
walk through select aliases and views to the underlying select type. -/
def unwrapSelectAlias : HType → HType
  | .selectQueryAliasT _ inner => unwrapSelectAlias inner
  | .selectViewT _ _ inner => unwrapSelectAlias inner
  | t => t

/-- `Resolver._asterisk_columns` (resolver.py lines 227-249): expand an
asterisk type into one bare-identifier `Field` per exported column — from
`get_asterisk()` of a relational owner, or from the exported `columns` of a
select-kind owner (a union contributes its first branch). The source's
Python name carries a leading underscore. -/
def asterisk_columns (tableType : HType) : Res (List Expr) :=
  if isBaseTableType tableType then
    match resolveDatabaseTable tableType with
    | some table => .ok (table.asteriskKeys.map (fun key => Expr.field Option.none Option.none Option.none [key]))
    | Option.none => .error .indexError
  else if isSelectKind tableType then do
    let select := unwrapSelectAlias tableType
    let select ← (match select with
      | .selectUnionT [] => .error RFail.indexError
      | .selectUnionT (t :: _) => pure t
      | t => pure t)
    match select with
    | .selectQueryT sc => .ok (sc.columns.map (fun p => Expr.field Option.none Option.none Option.none [p.1]))
    | _ => .error (.queryError "Can't expand asterisk (*) on subquery")
  else
    .error (.queryError ("Can't expand asterisk (*) on a type of type " ++ tableType.className))

/-- The chain-traversal loop of `visit_field` (resolver.py lines 520-543),
walking the remaining chain segments from the seeded type. A traverser
prepends its chain and continues on its owner; `".."` pops two entries of the
walk history and resumes from the then-last entry (out-of-range pops are the
source's uncaught `IndexError`); every ordinary step calls `getChild`, and a
null child raises `ResolutionError`. The walk history `previousTypes` keeps
its most recent entry at the head (the Python list appends at the end).
`chainLoopBody` is the loop body for a non-traverser current type, with the
continuation passed in. -/
def chainLoopBody (fullChain : List String) (recurse : HType → List String → List HType → Res HType)
    (loopType : HType) (chainToParse : List String) (previousTypes : List HType) : Res HType :=
  let previousTypes := loopType :: previousTypes
  match chainToParse with
  | [] => .ok loopType
  | next0 :: restChain =>
    if next0 == ".." then
      match previousTypes with
      | _ :: _ :: lt :: prevRest =>
        match restChain with
        | nc :: rc =>
          match getChild lt nc with
          | some t => recurse t rc (lt :: prevRest)
          | Option.none => .error (.resolutionError ("Cannot resolve type " ++ String.intercalate "." fullChain ++ ". Unable to resolve " ++ nc ++ "."))
        | [] => .error .indexError
      | _ => .error .indexError
    else
      match getChild loopType next0 with
      | some t => recurse t restChain previousTypes
      | Option.none => .error (.resolutionError ("Cannot resolve type " ++ String.intercalate "." fullChain ++ ". Unable to resolve " ++ next0 ++ "."))

def chainLoop (fullChain : List String) : Nat → HType → List String → List HType → Res HType
  | 0, _, _, _ => .error .fuel
  | n + 1, loopType, chainToParse, previousTypes =>
    match loopType with
    | .fieldTraverserT tChain tOwner => chainLoop fullChain n tOwner (tChain ++ chainToParse) previousTypes
    | _ => chainLoopBody fullChain (chainLoop fullChain n) loopType chainToParse previousTypes

/-- The resolver's recursive visit as an open-recursion parameter: the
per-node handlers receive `self.visit` as a function argument, and `visit`
below ties the knot through the fuel. -/
abbrev Visitor := RState → Expr → Res (Expr × RState)

/-- `self.visit(node)` on an optional child (`CloningVisitor.visit(None)`
returns `None`). -/
def visitOptWith (v : Visitor) (s : RState) : Option Expr → Res (Option Expr × RState)
  | Option.none => .ok (Option.none, s)
  | some e => do
      let (e', s') ← v s e
      .ok (some e', s')

/-- `self.visit` mapped over a list of children, threading the state. -/
def visitListWith (v : Visitor) : RState → List Expr → Res (List Expr × RState)
  | s, [] => .ok ([], s)
  | s, e :: es => do
      let (e', s') ← v s e
      let (es', s'') ← visitListWith v s' es
      .ok (e' :: es', s'')

/-- `visit_constant` (resolver.py lines 626-629): clone and attach the
literal's classified constant type. -/
def visit_constant (s : RState) (value : PyConst) : Res (Expr × RState) := do
  let t ← resolve_constant_data_type value
  .ok (.constant (some (.constT t)) value, s)

/-- `visit_and` (resolver.py lines 631-634): visit children, type `Boolean`. -/
def visit_and (v : Visitor) (s : RState) (es : List Expr) : Res (Expr × RState) := do
  let (es', s') ← visitListWith v s es
  .ok (.andE (some (.constT .boolean)) es', s')

/-- `visit_or` (resolver.py lines 636-639): visit children, type `Boolean`. -/
def visit_or (v : Visitor) (s : RState) (es : List Expr) : Res (Expr × RState) := do
  let (es', s') ← visitListWith v s es
  .ok (.orE (some (.constT .boolean)) es', s')

/-- `visit_not` (resolver.py lines 641-644): visit the child, type `Boolean`. -/
def visit_not (v : Visitor) (s : RState) (ex : Expr) : Res (Expr × RState) := do
  let (ex', s') ← v s ex
  .ok (.notE (some (.constT .boolean)) ex', s')

/-- `visit_compare_operation` (resolver.py lines 646-678). With
`modifiers.inCohortVia == "subquery"`, `InCohort`/`NotInCohort` are rewritten
through the opaque cohort macro and re-visited as `In`/`NotIn`. Otherwise the
operands are visited, the node is typed `Boolean`, and `In`/`NotIn` between a
resolved `events` column and an s3-backed SELECT are promoted to
`GlobalIn`/`GlobalNotIn`. -/
def visit_compare_operation (v : Visitor) (s : RState) (op : CompareOp) (left right : Expr) : Res (Expr × RState) :=
  if s.ctx.inCohortVia == "subquery" && op == .InCohort then
    v s (.compareE Option.none .In left (s.ctx.cohortQueryNode right))
  else if s.ctx.inCohortVia == "subquery" && op == .NotInCohort then
    v s (.compareE Option.none .NotIn left (s.ctx.cohortQueryNode right))
  else do
    let (left', s) ← v s left
    let (right', s) ← v s right
    let promote := (op == .In || op == .NotIn) && is_events_table left' && is_s3_cluster right'
    let op' := if promote then (if op == .In then CompareOp.GlobalIn else CompareOp.GlobalNotIn) else op
    .ok (.compareE (some (.constT .boolean)) op' left' right', s)

/-- `visit_alias` (resolver.py lines 388-403): outside any SELECT scope fail;
a visible name collision fails; an empty alias is an invariant violation; then
the aliased expression is visited, the node gets a `FieldAliasType`, and
visible aliases are registered into the (current) top scope. -/
def visit_alias (v : Visitor) (s : RState) (al : String) (ex : Expr) (hidden : Bool) : Res (Expr × RState) :=
  match s.scopes with
  | [] => .error (.queryError "Aliases are allowed only within SELECT queries")
  | scope :: _ =>
    if (lookupPair scope.aliases al).isSome && !hidden then
      .error (.queryError ("Cannot redefine an alias with the name: " ++ al))
    else if al == "" then .error (.impossibleAST "Alias cannot be empty")
    else do
      let (ex', s₁) ← v s ex
      let ty := HType.fieldAliasT al (match ex'.ty with | some t => t | Option.none => .constT .unknown)
      let s₂ := if !hidden then s₁.updateTopScope (fun sc => sc.setAliases (setPair sc.aliases al ty)) else s₁
      .ok (.aliasE (some ty) al ex' hidden, s₂)

/-- The tail of `visit_field` (resolver.py lines 520-576): walk the rest of
the chain from the seeded type, then post-process — inline expression fields
in the strict dialect (as a re-visited hidden alias), emit the informational
notice for resolved columns with known offsets, and wrap resolved fields and
properties in hidden aliases. -/
def visit_field_tail (n : Nat) (v : Visitor) (s : RState) (start stop : Option Nat)
    (chain : List String) (seed : HType) : Res (Expr × RState) := do
  let fieldName := (chain.getLast?).getD ""
  let finalType ← chainLoop chain n seed chain.tail []
  match finalType, s.dialect with
  | .expressionFieldT nm ex _, .clickhouse =>
      v s (.aliasE Option.none nm ex true)
  | _, _ =>
    let noticeMsg := fun (fn : String) =>
      "Field '" ++ fn ++ "' is of type '" ++ (field_constant_type finalType).printType ++ "'"
    let s := match finalType, start, stop with
      | .fieldT fn _, some a, some b => { s with ctx := s.ctx.add_notice (some a) (some b) (noticeMsg fn) }
      | _, _, _ => s
    match finalType with
    | .fieldT fn _ =>
        .ok (.aliasE (some (.fieldAliasT fn finalType)) (if fieldName == "" then fn else fieldName)
              (.field (some finalType) start stop chain) true, s)
    | .propertyT pchain _ =>
        let propertyAlias := String.intercalate "__" pchain
        .ok (.aliasE (some (.fieldAliasT propertyAlias finalType)) propertyAlias
              (.field (some finalType) start stop chain) true, s)
    | _ => .ok (.field (some finalType) start stop chain, s)

/-- `visit_field` (resolver.py lines 458-576), head resolution: an empty chain
is a `ResolutionError`; a multi-segment chain whose head names a registered
table seeds with that table; a lone `*` requires exactly one table in scope
and seeds an `Asterisk`; otherwise the head is looked up in the scope, then as
a CTE (field access on a CTE fails; a subquery CTE referenced as a value is
re-emitted as a plain field; an expression CTE is expanded under the CTE
counter); an unresolvable head fails in the strict dialect and becomes an
`UnresolvedField` plus a recorded diagnostic in the lenient one. -/
def visit_field (n : Nat) (v : Visitor) (s : RState) (start stop : Option Nat)
    (chain : List String) : Res (Expr × RState) :=
  match chain with
  | [] => .error (.resolutionError "Invalid field access with empty chain")
  | c0 :: rest =>
    match s.scopes with
    | [] => .error .indexError
    | scope :: _ => do
      let type₁ : Option HType :=
        if rest.isEmpty then Option.none else lookupPair scope.tables c0
      let type₂ : Option HType ←
        (if c0 == "*" && rest.isEmpty then
          let tableCount := scope.anonymousTables.length + scope.tables.length
          if tableCount == 0 then
            .error (RFail.queryError "Cannot use '*' when there are no tables in the query")
          else if tableCount > 1 then
            .error (RFail.queryError "Cannot use '*' without table name when there are multiple tables in the query")
          else
            let tableType := match scope.anonymousTables, scope.tables with
              | t :: _, _ => t
              | [], (_, t) :: _ => t
              | [], [] => HType.constT .unknown
            .ok (some (HType.asteriskT tableType))
        else .ok type₁)
      let type₃ : Option HType ← (if type₂.isNone then lookup_field_by_name scope c0 else .ok type₂)
      match type₃ with
      | some t => visit_field_tail n v s start stop chain t
      | Option.none =>
        match lookup_cte_by_name s.scopes c0 with
        | some cte =>
          if !rest.isEmpty then
            .error (.queryError ("Cannot access fields on CTE " ++ cte.name ++ " yet"))
          else if cte.cteType == .subquery then
            .ok (.field Option.none Option.none Option.none chain, s)
          else do
            let s₁ := { s with cteCounter := s.cteCounter + 1 }
            let (response, s₂) ← v s₁ cte.expr
            .ok (response, { s₂ with cteCounter := s₂.cteCounter - 1 })
        | Option.none =>
          if s.dialect == .clickhouse then
            .error (.queryError ("Unable to resolve field: " ++ c0))
          else
            visit_field_tail n v
              { s with ctx := s.ctx.add_error start stop ("Unable to resolve field: " ++ c0) }
              start stop chain (.unresolvedFieldT c0)

/-- The SELECT-list loop of `visit_select_query` (resolver.py lines 160-167):
visit each item; an item resolving to an `Asterisk` is expanded by
`asterisk_columns` and the emitted bare identifiers are visited and spliced
in; anything else is appended. -/
def visitSelectList (v : Visitor) : RState → List Expr → Res (List Expr × RState)
  | s, [] => .ok ([], s)
  | s, e :: es => do
      let (e', s) ← v s e
      match e'.ty with
      | some (.asteriskT tt) => do
          let columns ← asterisk_columns tt
          let (cols', s) ← visitListWith v s columns
          let (rest', s) ← visitSelectList v s es
          .ok (cols' ++ rest', s)
      | _ => do
          let (rest', s) ← visitSelectList v s es
          .ok (e' :: rest', s)

/-- `visit_select_query` (resolver.py lines 118-225) on the clauses of this
model: create the scope (with the node's CTEs moved into it) and push it,
visit `select_from`, resolve the SELECT list with asterisk expansion, run the
column-registration loop, visit `WHERE`, then pop the (by now fully mutated)
scope, which is the new node's type; the clone's printable `ctes` become
`None`. The ARRAY JOIN passes, GROUP/ORDER/LIMIT clauses, window expressions
and settings are not part of this model's `SelectData` and none of the
verified behaviour touches them. -/
def visit_select_query (v : Visitor) (s : RState) (sd : SelectData) : Res (Expr × RState) := do
  let node_type : SelectScope := .mk [] [] [] [] (match sd.ctes with | some cs => cs | Option.none => [])
  let s := s.pushScope node_type
  let (selectFrom', s) ← visitOptWith v s sd.selectFrom
  let (selectNodes, s) ← visitSelectList v s sd.select
  let (cols, _) := registerColumns selectNodes
  let s := s.updateTopScope (fun sc => sc.setColumns cols)
  let (where', s) ← visitOptWith v s sd.whereE
  match s.scopes with
  | scope :: rest =>
      .ok (.selectQ (some (.selectQueryT scope)) (.mk Option.none selectNodes selectFrom' where' sd.viewName),
           { s with scopes := rest })
  | [] => .error (.resolutionError "scope stack underflow")

/-- Visit a join constraint when it has the given kind (`USING` constraints
are visited before the joined table is registered, `ON` constraints after). -/
def visitConstraintIf (kind : String) (v : Visitor) (s : RState) :
    Option JoinConstraint → Res (Option JoinConstraint × RState)
  | some c =>
      if c.constraintType == kind then do
        let (e', s') ← v s c.expr
        .ok (some (JoinConstraint.mk e' c.constraintType), s')
      else .ok (some c, s)
  | Option.none => .ok (Option.none, s)

/-- The tables of the current top scope. -/
def topTables (s : RState) : List (String × HType) :=
  match s.scopes with
  | sc :: _ => sc.tables
  | [] => []

/-- `node.type` of a visited node read as a Python attribute (visited nodes
always carry a type; `Unknown` is an unreachable default). -/
def tyD (e : Expr) : HType :=
  match e.ty with
  | some t => t
  | Option.none => .constT .unknown


/-- `table_alias = node.alias or table_name` (resolver.py line 279): Python
`or` falls through on a falsy (absent or empty) alias. -/
def orTableName (al : Option String) (tableName : String) : String :=
  match al with
  | some a => if a == "" then tableName else a
  | Option.none => tableName

/-- The function-call-table alias fixup of `visit_join_expr` (resolver.py
lines 342-344): write the generated alias back when none was present. -/
def functionTableOutAlias (nodeType : HType) (al : Option String) : Option String :=
  match nodeType, al with
  | .tableAliasT a _, Option.none => some a
  | _, x => x

/-- `visit_join_expr` (resolver.py lines 251-383). Outside a SELECT it is an
invariant violation. A single-segment field naming a CTE is expanded: the
join is cloned with the CTE body as its table, the alias defaults to the CTE
name, and the clone is re-visited under the CTE counter. A field is otherwise
a catalog table: re-registration of the alias fails, the descriptor is
wrapped as a (lazy) table type — aliased when the user wrote an alias or the
table is a function-call table — `USING` constraints are visited before
registration, the table is registered, `next_join` is visited and the
events-before-s3 look-ahead promotes it to a `GLOBAL JOIN`, then the `ON`
constraint is visited and a function-call table's generated alias is written
back. A sub-select is visited (via the cloning visitor's dispatch, which
lands in `visit_select_query`), then registered as a view, an aliased
subquery, or an anonymous table. Anything else cannot be a SELECT source.
The `SavedQuery` expansion and `HogQLXTag` conversion call the parser and the
tag converter, out-of-scope collaborators (spec §1); no table of this model
is a saved query and no node a tag. `sample` and `table_args` are not part of
this model's `JoinData`. The clone keeps `type`, which the `visit` guard has
ensured is `None`. -/
def visit_join_expr (v : Visitor) (s : RState) (jd : JoinData) : Res (Expr × RState) := do
  match s.scopes with
  | [] => .error (.impossibleAST "Unexpected JoinExpr outside a SELECT query")
  | scope :: _ =>
    match jd.table with
    | .field _ fst fen tchain =>
      let cteOpt := match tchain with
        | [tname] => lookup_cte_by_name s.scopes tname
        | _ => Option.none
      match tchain, cteOpt with
      | [tname], some cte => do
          let jd' : JoinData := .mk cte.expr
            (some (match jd.al with | some a => a | Option.none => tname))
            jd.joinType jd.nextJoin jd.constraint
          let s₁ := { s with cteCounter := s.cteCounter + 1 }
          let (response, s₂) ← v s₁ (.joinE Option.none jd')
          .ok (response, { s₂ with cteCounter := s₂.cteCounter - 1 })
      | _, _ =>
        match tchain with
        | [] => .error .indexError
        | tableName :: _ => do
          let tableAlias := orTableName jd.al tableName
          if (lookupPair scope.tables tableAlias).isSome then
            .error (.queryError ("Already have joined a table called \"" ++ tableAlias ++ "\". Can't redefine."))
          else
            match s.ctx.database.get_table tableName with
            | Option.none => .error (.queryError ("Unknown table \"" ++ tableName ++ "\"."))
            | some databaseTable => do
              let nodeTableType : HType :=
                if databaseTable.isLazy then .lazyTableT databaseTable else .tableT databaseTable
              let nodeType : HType :=
                if tableAlias != tableName || databaseTable.isFunctionCall then
                  .tableAliasT tableAlias nodeTableType
                else nodeTableType
              let (constraint₁, s) ← visitConstraintIf "USING" v s jd.constraint
              let s := s.updateTopScope (fun sc => sc.setTables (setPair sc.tables tableAlias nodeType))
              let newTable : Expr := .field (some nodeTableType) fst fen tchain
              let (nextJoin₁, s) ← visitOptWith v s jd.nextJoin
              let nextJoin₂ :=
                if joinIsGlobal nodeType nextJoin₁ then setNextJoinType nextJoin₁ (some "GLOBAL JOIN")
                else nextJoin₁
              let (constraint₂, s) ← visitConstraintIf "ON" v s constraint₁
              let outAlias := functionTableOutAlias nodeType jd.al
              .ok (.joinE (some nodeType) (.mk newTable outAlias jd.joinType nextJoin₂ constraint₂), s)
    | .selectQ _ sdt => do
        let (constraint₁, s) ← visitConstraintIf "USING" v s jd.constraint
        let (table', s) ← visit_select_query v s sdt
        let vn := match table' with
          | .selectQ _ sd' => sd'.viewName
          | _ => Option.none
        let (tyOut, s) ← (match vn, jd.al with
          | some viewName, some a =>
            if (lookupPair (topTables s) a).isSome then
              .error (RFail.queryError ("Already have joined a table called \"" ++ a ++ "\". Can't join another one with the same name."))
            else
              let ty := HType.selectViewT a viewName (tyD table')
              .ok (some ty, s.updateTopScope (fun sc => sc.setTables (setPair sc.tables a ty)))
          | _, some a =>
            if (lookupPair (topTables s) a).isSome then
              .error (RFail.queryError ("Already have joined a table called \"" ++ a ++ "\". Can't join another one with the same name."))
            else
              let ty := HType.selectQueryAliasT a (tyD table')
              .ok (some ty, s.updateTopScope (fun sc => sc.setTables (setPair sc.tables a ty)))
          | _, Option.none =>
              .ok (table'.ty, s.updateTopScope (fun sc => sc.setAnonymousTables (sc.anonymousTables ++ [tyD table']))))
        let (nextJoin', s) ← visitOptWith v s jd.nextJoin
        let (constraint₂, s) ← visitConstraintIf "ON" v s constraint₁
        .ok (.joinE tyOut (.mk table' jd.al jd.joinType nextJoin' constraint₂), s)
    | other => .error (.queryError ("A " ++ other.className ++ " cannot be used as a SELECT source"))

/-- The message of the re-resolution guard of `Resolver.visit` (resolver.py
lines 96-98). -/
def alreadyResolvedMsg (nodeClass typeClass : String) : String :=
  "Type already resolved for " ++ nodeClass ++ " (" ++ typeClass ++ "). Can't run again."

/-- `CloningVisitor.visit` dispatch on the node class, handing each node to
its `visit_<kind>` handler with the recursive visitor `v`. -/
def visitDispatch (n : Nat) (v : Visitor) (s : RState) (e : Expr) : Res (Expr × RState) :=
  match e with
  | .constant _ value => visit_constant s value
  | .field _ start stop chain => visit_field n v s start stop chain
  | .aliasE _ al ex hidden => visit_alias v s al ex hidden
  | .andE _ es => visit_and v s es
  | .orE _ es => visit_or v s es
  | .notE _ ex => visit_not v s ex
  | .compareE _ op l r => visit_compare_operation v s op l r
  | .selectQ _ sd => visit_select_query v s sd
  | .joinE _ jd => visit_join_expr v s jd

/-- `Resolver.visit` (resolver.py lines 94-101): a node whose type is already
set cannot be resolved again (`ResolutionError`); past 50 CTE expansions every
visit raises the CTE-loop `QueryError`; otherwise dispatch. The fuel drives
the embedding's recursion. -/
def visit : Nat → RState → Expr → Res (Expr × RState)
  | 0, _, _ => .error .fuel
  | n + 1, s, e =>
    match e.ty with
    | some t => .error (.resolutionError (alreadyResolvedMsg e.className t.className))
    | Option.none =>
      if s.cteCounter > 50 then
        .error (.queryError "Too many CTE expansions (50+). Probably a CTE loop.")
      else visitDispatch n (visit n) s e

/-- `resolve_types` (resolver.py lines 57-63): run a fresh resolver over the
node, with an optionally pre-seeded scope stack. -/
def resolve_types (fuel : Nat) (node : Expr) (context : Ctx) (dialect : Dialect)
    (scopes : Option (List SelectScope)) : Res Expr := do
  let s : RState := ⟨(match scopes with | some l => l | Option.none => []), 0, context, dialect⟩
  let (e, _) ← visit fuel s node
  .ok e

/-! ## Supporting lemmas -/

mutual

theorem ConstantType.beq_refl : ∀ t : ConstantType, t.beq t = true
  | .unknown => rfl
  | .boolean => rfl
  | .integer => rfl
  | .float => rfl
  | .string => rfl
  | .date => rfl
  | .datetime => rfl
  | .uuid => rfl
  | .array a => by simpa [ConstantType.beq] using ConstantType.beq_refl a
  | .tuple items => by simpa [ConstantType.beq] using ConstantType.beqList_refl items

theorem ConstantType.beqList_refl : ∀ l : List ConstantType, ConstantType.beqList l l = true
  | [] => rfl
  | a :: as' => by
      simp [ConstantType.beqList]
      exact ⟨ConstantType.beq_refl a, ConstantType.beqList_refl as'⟩

end

mutual

theorem ConstantType.eq_of_beq : ∀ {a b : ConstantType}, a.beq b = true → a = b
  | .unknown, .unknown, _ => rfl
  | .boolean, .boolean, _ => rfl
  | .integer, .integer, _ => rfl
  | .float, .float, _ => rfl
  | .string, .string, _ => rfl
  | .date, .date, _ => rfl
  | .datetime, .datetime, _ => rfl
  | .uuid, .uuid, _ => rfl
  | .array a, .array b, h => by
      simp [ConstantType.beq] at h
      exact congrArg ConstantType.array (ConstantType.eq_of_beq h)
  | .tuple a, .tuple b, h => by
      simp [ConstantType.beq] at h
      exact congrArg ConstantType.tuple (ConstantType.eqList_of_beqList h)

theorem ConstantType.eqList_of_beqList : ∀ {a b : List ConstantType}, ConstantType.beqList a b = true → a = b
  | [], [], _ => rfl
  | x :: xs, y :: ys, h => by
      simp [ConstantType.beqList] at h
      have h1 := ConstantType.eq_of_beq h.1
      have h2 := ConstantType.eqList_of_beqList h.2
      rw [h1, h2]

end

instance : LawfulBEq ConstantType where
  eq_of_beq := ConstantType.eq_of_beq
  rfl := ConstantType.beq_refl _

theorem lookupPair_setPair_self {α : Type} (l : List (String × α)) (k : String) (v : α) :
    lookupPair (setPair l k v) k = some v := by
  induction l with
  | nil => simp [setPair, lookupPair, List.find?]
  | cons p rest ih =>
    obtain ⟨k', v'⟩ := p
    by_cases h : k' = k
    · simp [setPair, h, lookupPair, List.find?]
    · rw [show setPair ((k', v') :: rest) k v = (k', v') :: setPair rest k v by
        simp [setPair, h]]
      simp only [lookupPair, List.find?] at *
      rw [show (k' == k) = false by simpa using h]
      exact ih

theorem lookupPair_setPair_ne {α : Type} (l : List (String × α)) (k k' : String) (v : α)
    (h : k' ≠ k) : lookupPair (setPair l k v) k' = lookupPair l k' := by
  induction l with
  | nil => simp [setPair, lookupPair, List.find?, show (k == k') = false by simpa using (Ne.symm h)]
  | cons p rest ih =>
    obtain ⟨k₀, v₀⟩ := p
    by_cases hk : k₀ = k
    · subst hk
      simp [setPair, lookupPair, List.find?, show (k₀ == k') = false by simpa using (Ne.symm h)]
    · rw [show setPair ((k₀, v₀) :: rest) k v = (k₀, v₀) :: setPair rest k v by
        simp [setPair, hk]]
      simp only [lookupPair, List.find?] at *
      cases hb : (k₀ == k') with
      | true => simp
      | false => exact ih

theorem res_bind_ok {α β : Type} (a : α) (f : α → Res β) :
    (Except.ok a >>= f : Res β) = f a := rfl

theorem res_bind_err {α β : Type} (e : RFail) (f : α → Res β) :
    ((Except.error e : Res α) >>= f) = .error e := rfl

theorem res_bind_ok_eq_map {α β : Type} (x : Res α) (g : α → β) :
    (x >>= fun a => (Except.ok (g a) : Res β)) = x.map g := by
  cases x <;> rfl

theorem dedupFold_sub (l acc : List ConstantType) :
    ∀ x ∈ acc, x ∈ l.foldl (fun acc t => if acc.any (fun u => u == t) then acc else t :: acc) acc := by
  induction l generalizing acc with
  | nil => simp
  | cons e rest ih =>
    intro x hx
    simp only [List.foldl_cons]
    apply ih
    by_cases h : acc.any (fun u => u == e)
    · simpa [h] using hx
    · simp only [h]
      simp [hx]

theorem dedupFold_mem (l : List ConstantType) :
    ∀ acc, ∀ x ∈ l, x ∈ l.foldl (fun acc t => if acc.any (fun u => u == t) then acc else t :: acc) acc := by
  induction l with
  | nil => simp
  | cons e rest ih =>
    intro acc x hx
    simp only [List.foldl_cons]
    rcases List.mem_cons.mp hx with h | h
    · subst h
      apply dedupFold_sub
      by_cases hany : acc.any (fun u => u == x)
      · rcases List.any_eq_true.mp hany with ⟨w, hw, hbeq⟩
        have : w = x := eq_of_beq hbeq
        subst this
        simpa [hany] using hw
      · simp [hany]
    · exact ih _ x h

theorem dedupFold_const (l : List ConstantType) (t : ConstantType) (h : ∀ u ∈ l, u = t) :
    l.foldl (fun acc t => if acc.any (fun u => u == t) then acc else t :: acc) [t] = [t] := by
  induction l with
  | nil => simp
  | cons u rest ih =>
    have hu : u = t := h u (by simp)
    subst hu
    simp only [List.foldl_cons]
    rw [show (if [u].any (fun w => w == u) then [u] else u :: [u]) = [u] by simp]
    exact ih (fun w hw => h w (by simp [hw]))

theorem uniqueConstantTypes_const (t : ConstantType) (tys : List ConstantType)
    (h : ∀ u ∈ tys, u = t) : uniqueConstantTypes (t :: tys) = [t] := by
  simp only [uniqueConstantTypes, List.foldl_cons]
  rw [show (if List.any [] (fun u => u == t) then ([] : List ConstantType) else t :: []) = [t] by simp]
  exact dedupFold_const tys t h

theorem uniqueConstantTypes_mem (tys : List ConstantType) :
    ∀ x ∈ tys, x ∈ uniqueConstantTypes tys := by
  intro x hx
  exact dedupFold_mem tys [] x hx

/-! ## Claims -/

/-- C8: the constant classifier maps every literal exactly as specified:
null to Unknown, booleans to Boolean (and booleans are Python ints, so the
boolean test must come first for True/False never to classify as Integer),
integers to Integer, floats to Float, strings to String, dates/datetimes/UUIDs
to their scalar types, tuples to Tuple of the element-wise classifications,
and lists to Array(item) where item is the common classification when all
elements classify identically and Unknown otherwise; any other value raises
ImpossibleAST. -/
theorem claim_C8_constant_classifier :
    (resolve_constant_data_type .none = .ok .unknown)
  ∧ (∀ b, isinstance_int (.bool b) = true ∧ resolve_constant_data_type (.bool b) = .ok .boolean)
  ∧ (∀ n : Int, resolve_constant_data_type (.int n) = .ok .integer)
  ∧ (resolve_constant_data_type .float = .ok .float)
  ∧ (∀ s, resolve_constant_data_type (.str s) = .ok .string)
  ∧ (resolve_constant_data_type .date = .ok .date)
  ∧ (resolve_constant_data_type .datetime = .ok .datetime)
  ∧ (resolve_constant_data_type .uuid = .ok .uuid)
  ∧ (∀ items tys, resolve_constant_list items = .ok tys →
      resolve_constant_data_type (.tuple items) = .ok (.tuple tys))
  ∧ (∀ items t tys, resolve_constant_list items = .ok (t :: tys) → (∀ u ∈ t :: tys, u = t) →
      resolve_constant_data_type (.list items) = .ok (.array t))
  ∧ (∀ items tys, resolve_constant_list items = .ok tys →
      (¬ ∃ x, tys ≠ [] ∧ ∀ u ∈ tys, u = x) →
      resolve_constant_data_type (.list items) = .ok (.array .unknown))
  ∧ (∀ tn, resolve_constant_data_type (.other tn)
      = .error (.impossibleAST ("Unsupported constant type: " ++ tn))) := by
  refine ⟨rfl, fun b => ⟨rfl, rfl⟩, fun n => rfl, rfl, fun s => rfl, rfl, rfl, rfl, ?_, ?_, ?_,
    fun tn => rfl⟩
  · intro items tys h
    simp only [resolve_constant_data_type, h, res_bind_ok]
  · intro items t tys h hall
    simp only [resolve_constant_data_type, h, res_bind_ok]
    rw [uniqueConstantTypes_const t tys (fun u hu => hall u (by simp [hu]))]
    simp
  · intro items tys h hne
    simp only [resolve_constant_data_type, h, res_bind_ok]
    cases tys with
    | nil => simp [uniqueConstantTypes]
    | cons t ts =>
      have hlen : (uniqueConstantTypes (t :: ts)).length ≠ 1 := by
        intro hl
        rcases List.length_eq_one.mp hl with ⟨r, hr⟩
        apply hne
        refine ⟨r, by simp, ?_⟩
        intro u hu
        have hm := uniqueConstantTypes_mem (t :: ts) u hu
        rw [hr] at hm
        simpa using hm
      rw [show ((uniqueConstantTypes (t :: ts)).length == 1) = false by simpa using hlen]

/-- Witness for C8: the hypothesis-bearing conjuncts applied at concrete
literals — a homogeneous integer list, a mixed list and a tuple. -/
theorem claim_C8_constant_classifier_witness :
    resolve_constant_data_type (.list [.int 1, .int 2]) = .ok (.array .integer)
  ∧ resolve_constant_data_type (.list [.int 1, .bool true]) = .ok (.array .unknown)
  ∧ resolve_constant_data_type (.tuple [.bool true, .str "x"]) = .ok (.tuple [.boolean, .string]) := by
  refine ⟨?_, ?_, ?_⟩
  · refine claim_C8_constant_classifier.2.2.2.2.2.2.2.2.2.1 [.int 1, .int 2] .integer [.integer] rfl ?_
    intro u hu
    rcases List.mem_cons.mp hu with h | h
    · exact h
    · simpa using h
  · refine claim_C8_constant_classifier.2.2.2.2.2.2.2.2.2.2.1 [.int 1, .bool true]
      [.integer, .boolean] rfl ?_
    rintro ⟨x, -, hall⟩
    have h1 := hall .integer (by simp)
    have h2 := hall .boolean (by simp)
    rw [← h1] at h2
    exact ConstantType.noConfusion h2
  · exact claim_C8_constant_classifier.2.2.2.2.2.2.2.2.1 [.bool true, .str "x"]
      [.boolean, .string] rfl

/-- C9: resolving an Alias expression with an empty scope stack — a
`resolve_types` call on a bare aliased expression with no enclosing SELECT and
no pre-seeded scopes — raises the QueryError that aliases are allowed only
within SELECT queries, for every alias name (including the empty name, which
would otherwise hit the empty-alias invariant check) and every hidden flag:
the scope check fires before the empty-alias and collision checks. -/
theorem claim_C9_alias_requires_select_scope (n : Nat) (context : Ctx) (dialect : Dialect)
    (al : String) (ex : Expr) (hidden : Bool) :
    resolve_types (n + 1) (.aliasE Option.none al ex hidden) context dialect Option.none
      = .error (.queryError "Aliases are allowed only within SELECT queries") := by
  simp [resolve_types, visit, Expr.ty, visitDispatch, visit_alias, res_bind_err]

/-- A sample `events` catalog table (schema of spec §8: `events(id String,
event String, properties JSON)`). -/
def sampleEvents : DBTable :=
  .mk "events" [("id", .scalar .string), ("event", .scalar .string), ("properties", .json)]
    ["id", "event", "properties"] true false false false

/-- A sample `s3_table(id String)` external table; an s3 table is a
function-call table (`s3(...)`). -/
def sampleS3 : DBTable :=
  .mk "s3_table" [("id", .scalar .string)] ["id"] false true true false

/-- A sample catalog holding the two tables above. -/
def sampleDb : Database := ⟨[("events", sampleEvents), ("s3_table", sampleS3)]⟩

/-- A sample context over `sampleDb` with no recorded diagnostics, cohort
membership via left join, and an identity cohort expander. -/
def sampleCtx : Ctx := ⟨[], [], sampleDb, "leftjoin", fun e => e⟩

/-- A fresh strict-dialect resolver state over `sampleCtx`. -/
def sampleState : RState := ⟨[], 0, sampleCtx, .clickhouse⟩

/-- The body of the self-referencing CTE: `SELECT * FROM r`. -/
def cteLoopBody : Expr :=
  .selectQ Option.none (.mk Option.none [.field Option.none Option.none Option.none ["*"]]
    (some (.joinE Option.none (.mk (.field Option.none Option.none Option.none ["r"])
      Option.none Option.none Option.none Option.none)))
    Option.none Option.none)

/-- The self-referencing query `WITH r AS (SELECT * FROM r) SELECT * FROM r`. -/
def cteLoopQuery : Expr :=
  .selectQ Option.none (.mk (some [.mk "r" cteLoopBody .subquery])
    [.field Option.none Option.none Option.none ["*"]]
    (some (.joinE Option.none (.mk (.field Option.none Option.none Option.none ["r"])
      Option.none Option.none Option.none Option.none)))
    Option.none Option.none)

set_option maxRecDepth 400000

/-- C3: during one `resolve_types` call the CTE-expansion counter bounds CTE
expansion by 50: (i) any visit of an (untyped) node performed while the
counter exceeds 50 raises the CTE-loop QueryError; (ii) expanding a CTE as a
FROM source re-visits the rewritten join with the counter incremented (the
matching decrement runs only on success, as in the source, where an exception
skips it); and (iii) the self-referencing query `WITH r AS (SELECT * FROM r)
SELECT * FROM r` fails with the CTE-loop QueryError instead of recursing
forever. The expression-CTE increment site is the subject of C10. -/
theorem claim_C3_cte_expansion_guard :
    (∀ n s (e : Expr), e.ty = Option.none → s.cteCounter > 50 →
       visit (n + 1) s e = .error (.queryError "Too many CTE expansions (50+). Probably a CTE loop."))
  ∧ (∀ n (s : RState) scope rest tname cte al jt nj c ty0 fst fen,
       s.scopes = scope :: rest → s.cteCounter ≤ 50 →
       lookup_cte_by_name s.scopes tname = some cte →
       visit (n + 1) s (.joinE Option.none (.mk (.field ty0 fst fen [tname]) al jt nj c))
         = (visit n { s with cteCounter := s.cteCounter + 1 }
              (.joinE Option.none (.mk cte.expr (some (match al with | some a => a | Option.none => tname)) jt nj c))).map
             (fun p => (p.1, { p.2 with cteCounter := p.2.cteCounter - 1 })))
  ∧ (visit 400 sampleState cteLoopQuery
       = .error (.queryError "Too many CTE expansions (50+). Probably a CTE loop.")) := by
  refine ⟨?_, ?_, by rfl⟩
  · intro n s e hty hc
    cases e <;> simp_all [visit, Expr.ty, show s.cteCounter > 50 from hc]
  · intro n s scope rest tname cte al jt nj c ty0 fst fen hs hc hcte
    rw [show visit (n + 1) s (.joinE Option.none (.mk (.field ty0 fst fen [tname]) al jt nj c))
        = visit_join_expr (visit n) s (.mk (.field ty0 fst fen [tname]) al jt nj c) by
      simp [visit, Expr.ty, Nat.not_lt.mpr hc, visitDispatch]]
    rw [visit_join_expr]
    rw [hs]
    simp only [JoinData.table, hcte]
    simp only [show lookup_cte_by_name (scope :: rest) tname = some cte by rw [← hs]; exact hcte]
    simp only [JoinData.al, JoinData.joinType, JoinData.nextJoin, JoinData.constraint]
    exact res_bind_ok_eq_map _ _

/-- A resolver state whose CTE counter has already exceeded the bound. -/
def overBudgetState : RState := ⟨[], 51, sampleCtx, .clickhouse⟩

/-- A scope declaring the subquery CTE `r AS (SELECT * FROM r)`. -/
def c3Scope : SelectScope := .mk [] [] [] [] [.mk "r" cteLoopBody .subquery]

/-- A resolver state with `c3Scope` on the stack. -/
def c3State : RState := ⟨[c3Scope], 0, sampleCtx, .clickhouse⟩

/-- Witness for C3: the guard conjunct applied at a concrete over-budget
state, and the increment conjunct applied at a concrete CTE-expanding join. -/
theorem claim_C3_cte_expansion_guard_witness :
    (visit 1 overBudgetState (.field Option.none Option.none Option.none ["x"])
       = .error (.queryError "Too many CTE expansions (50+). Probably a CTE loop."))
  ∧ (visit 3 c3State (.joinE Option.none (.mk (.field Option.none Option.none Option.none ["r"])
        Option.none Option.none Option.none Option.none))
       = (visit 2 { c3State with cteCounter := c3State.cteCounter + 1 }
            (.joinE Option.none (.mk cteLoopBody (some "r") Option.none Option.none Option.none))).map
           (fun p => (p.1, { p.2 with cteCounter := p.2.cteCounter - 1 }))) := by
  constructor
  · exact claim_C3_cte_expansion_guard.1 0 overBudgetState _ rfl (by decide)
  · exact claim_C3_cte_expansion_guard.2.1 2 c3State c3Scope [] "r" (.mk "r" cteLoopBody .subquery)
      Option.none Option.none Option.none Option.none Option.none Option.none Option.none
      rfl (by decide) rfl

/-- C10: when a dotted identifier's head resolves only to a CTE on the scope
stack (no table/alias/column/expression-field/traverser match): (i) a chain of
length greater than one raises the QueryError that fields on a CTE cannot be
accessed; (ii) for a single-token chain, a subquery-kind CTE referenced as a
value is re-emitted as a plain untyped field; and (iii) an expression-kind
CTE is expanded by resolving its (cloned) body with the CTE counter
incremented, the counter being restored on success. -/
theorem claim_C10_cte_value_reference (n : Nat) (s : RState) (scope : SelectScope)
    (rest : List SelectScope) (c0 : String) (cte : CTE) (st en : Option Nat)
    (hs : s.scopes = scope :: rest) (hc : s.cteCounter ≤ 50)
    (hfield : lookup_field_by_name scope c0 = .ok Option.none)
    (hcte : lookup_cte_by_name s.scopes c0 = some cte) :
    (∀ c1 crest, lookupPair scope.tables c0 = Option.none →
       visit (n + 1) s (.field Option.none st en (c0 :: c1 :: crest))
         = .error (.queryError ("Cannot access fields on CTE " ++ cte.name ++ " yet")))
  ∧ (c0 ≠ "*" → cte.cteType = .subquery →
       visit (n + 1) s (.field Option.none st en [c0])
         = .ok (.field Option.none Option.none Option.none [c0], s))
  ∧ (c0 ≠ "*" → cte.cteType = .column →
       visit (n + 1) s (.field Option.none st en [c0])
         = (visit n { s with cteCounter := s.cteCounter + 1 } cte.expr).map
             (fun p => (p.1, { p.2 with cteCounter := p.2.cteCounter - 1 }))) := by
  have hdisp : ∀ chain, visit (n + 1) s (.field Option.none st en chain)
      = visit_field n (visit n) s st en chain := by
    intro chain
    simp [visit, Expr.ty, Nat.not_lt.mpr hc, visitDispatch]
  refine ⟨?_, ?_, ?_⟩
  · intro c1 crest htab
    rw [hdisp, visit_field, hs]
    simp [htab, hfield, res_bind_ok, show lookup_cte_by_name (scope :: rest) c0 = some cte by
      rw [← hs]; exact hcte]
  · intro hstar hkind
    rw [hdisp, visit_field, hs]
    simp [show (c0 == "*") = false by simpa using hstar, hfield, res_bind_ok, hkind,
      show lookup_cte_by_name (scope :: rest) c0 = some cte by rw [← hs]; exact hcte]
  · intro hstar hkind
    rw [hdisp, visit_field, hs]
    simp only [show (c0 == "*") = false by simpa using hstar, hfield, res_bind_ok, hkind,
      show lookup_cte_by_name (scope :: rest) c0 = some cte by rw [← hs]; exact hcte]
    rw [← hs]
    exact res_bind_ok_eq_map _ _

/-- A scope declaring a subquery CTE `r` and an expression CTE `c AS 1`. -/
def c10Scope : SelectScope :=
  .mk [] [] [] [] [.mk "r" cteLoopBody .subquery, .mk "c" (.constant Option.none (.int 1)) .column]

/-- A resolver state with `c10Scope` on the stack. -/
def c10State : RState := ⟨[c10Scope], 0, sampleCtx, .clickhouse⟩

/-- Witness for C10: the three conjuncts applied at concrete CTE references —
`r.x` fails, `r` re-emits a plain field, `c` expands its body under the
counter. -/
theorem claim_C10_cte_value_reference_witness :
    (visit 1 c10State (.field Option.none Option.none Option.none ["r", "x"])
       = .error (.queryError ("Cannot access fields on CTE " ++ "r" ++ " yet")))
  ∧ (visit 1 c10State (.field Option.none Option.none Option.none ["r"])
       = .ok (.field Option.none Option.none Option.none ["r"], c10State))
  ∧ (visit 2 c10State (.field Option.none Option.none Option.none ["c"])
       = (visit 1 { c10State with cteCounter := c10State.cteCounter + 1 }
            (.constant Option.none (.int 1))).map
           (fun p => (p.1, { p.2 with cteCounter := p.2.cteCounter - 1 }))) := by
  refine ⟨?_, ?_, ?_⟩
  · exact (claim_C10_cte_value_reference 0 c10State c10Scope [] "r" (.mk "r" cteLoopBody .subquery)
      Option.none Option.none rfl (by decide) rfl rfl).1 "x" [] rfl
  · exact (claim_C10_cte_value_reference 0 c10State c10Scope [] "r" (.mk "r" cteLoopBody .subquery)
      Option.none Option.none rfl (by decide) rfl rfl).2.1 (by decide) rfl
  · exact (claim_C10_cte_value_reference 1 c10State c10Scope [] "c"
      (.mk "c" (.constant Option.none (.int 1)) .column)
      Option.none Option.none rfl (by decide) rfl rfl).2.2 (by decide) rfl

theorem chainLoop_unresolved (full : List String) (c0 : String) :
    ∀ (crest : List String) (k : Nat) (prev : List HType), ".." ∉ crest → crest.length < k →
    chainLoop full k (.unresolvedFieldT c0) crest prev = .ok (.unresolvedFieldT c0) := by
  intro crest
  induction crest with
  | nil =>
    intro k prev _ hk
    cases k with
    | zero => omega
    | succ m => simp [chainLoop, chainLoopBody]
  | cons seg segs ih =>
    intro k prev hdd hk
    cases k with
    | zero => omega
    | succ m =>
      simp only [chainLoop, chainLoopBody]
      rw [show (seg == "..") = false by
        simpa using fun h => hdd (by simp [h])]
      simp only [getChild]
      exact ih m _ (fun h => hdd (by simp [h])) (by simpa using Nat.lt_of_succ_lt_succ hk)

/-- C1: a dotted identifier whose head token resolves to no table, alias,
column, expression-field, traverser or CTE in scope (and is not the lone
asterisk): in the strict dialect (`clickhouse`) the resolver raises the
QueryError `Unable to resolve field: <name>`; in the lenient dialect
(`hogql`) it does not raise, attaches the `UnresolvedField(<name>)`
placeholder to the node, and records exactly one diagnostic on the context —
carrying the node's start and end offsets and the same message — leaving the
notices untouched (`".."` pseudo-segments, which short-circuit the chain walk
history, are excluded). -/
theorem claim_C1_unresolved_field (n : Nat) (s : RState) (scope : SelectScope)
    (rest : List SelectScope) (c0 : String) (crest : List String) (st en : Option Nat)
    (hs : s.scopes = scope :: rest) (hc : s.cteCounter ≤ 50)
    (htab : lookupPair scope.tables c0 = Option.none)
    (hfield : lookup_field_by_name scope c0 = .ok Option.none)
    (hcte : lookup_cte_by_name s.scopes c0 = Option.none)
    (hstar : ¬(c0 = "*" ∧ crest = []))
    (hdd : ".." ∉ crest)
    (hlen : crest.length < n) :
    (s.dialect = .clickhouse →
       visit (n + 1) s (.field Option.none st en (c0 :: crest))
         = .error (.queryError ("Unable to resolve field: " ++ c0)))
  ∧ (s.dialect = .hogql →
       visit (n + 1) s (.field Option.none st en (c0 :: crest))
         = .ok (.field (some (.unresolvedFieldT c0)) st en (c0 :: crest),
                { s with ctx := s.ctx.add_error st en ("Unable to resolve field: " ++ c0) })) := by
  have hnostar : (c0 == "*" && crest.isEmpty) = false := by
    by_cases h0 : c0 = "*"
    · have : crest ≠ [] := fun h => hstar ⟨h0, h⟩
      simp [List.isEmpty_iff, this]
    · simp [h0]
  have hdisp : visit (n + 1) s (.field Option.none st en (c0 :: crest))
      = visit_field n (visit n) s st en (c0 :: crest) := by
    simp [visit, Expr.ty, Nat.not_lt.mpr hc, visitDispatch]
  constructor
  · intro hd
    rw [hdisp, visit_field, hs]
    simp [htab, hnostar, hfield, res_bind_ok, hd, show lookup_cte_by_name (scope :: rest) c0 = Option.none by
      rw [← hs]; exact hcte]
  · intro hd
    rw [hdisp, visit_field, hs]
    simp only [htab, hnostar, hfield, res_bind_ok, hd,
      show lookup_cte_by_name (scope :: rest) c0 = Option.none by rw [← hs]; exact hcte]
    simp only [Bool.false_eq_true, if_false, res_bind_ok, Option.isNone_none, if_pos rfl]
    rw [visit_field_tail]
    rw [show (c0 :: crest).tail = crest from rfl]
    rw [chainLoop_unresolved (c0 :: crest) c0 crest n [] hdd hlen]
    simp [res_bind_ok, hs]

/-- An empty SELECT scope (no tables, aliases, columns or CTEs). -/
def emptyScope : SelectScope := .mk [] [] [] [] []

/-- A strict-dialect state with one empty scope. -/
def c1Strict : RState := ⟨[emptyScope], 0, sampleCtx, .clickhouse⟩

/-- A lenient-dialect state with one empty scope. -/
def c1Lenient : RState := ⟨[emptyScope], 0, sampleCtx, .hogql⟩

/-- Witness for C1: `SELECT nonexistent` — the strict dialect fails, the
lenient dialect types the node `UnresolvedField` and appends exactly one
diagnostic with the node's offsets. -/
theorem claim_C1_unresolved_field_witness :
    (visit 2 c1Strict (.field Option.none (some 7) (some 18) ["nonexistent"])
       = .error (.queryError ("Unable to resolve field: " ++ "nonexistent")))
  ∧ (visit 2 c1Lenient (.field Option.none (some 7) (some 18) ["nonexistent"])
       = .ok (.field (some (.unresolvedFieldT "nonexistent")) (some 7) (some 18) ["nonexistent"],
              { c1Lenient with
                ctx := c1Lenient.ctx.add_error (some 7) (some 18)
                  ("Unable to resolve field: " ++ "nonexistent") })) := by
  constructor
  · exact (claim_C1_unresolved_field 1 c1Strict emptyScope [] "nonexistent" [] (some 7) (some 18)
      rfl (by decide) rfl rfl rfl (by simp) (by simp) (by decide)).1 rfl
  · exact (claim_C1_unresolved_field 1 c1Lenient emptyScope [] "nonexistent" [] (some 7) (some 18)
      rfl (by decide) rfl rfl rfl (by simp) (by simp) (by decide)).2 rfl


/-- C7: for the single-token field `*`: (i) a scope with zero tables (named
and anonymous together) raises a QueryError; (ii) more than one table raises
the ambiguity QueryError; (iii)/(iv) exactly one table — the sole anonymous
table, or no anonymous table and the sole named table — gives the field an
Asterisk type owned by that table; and (v)-(vii) the enclosing SELECT's
expansion of an Asterisk type emits one bare identifier per exported column:
the `get_asterisk()` keys of a (possibly aliased) relational owner, or the
exported columns of a select-query owner. -/
theorem claim_C7_asterisk_resolution (n : Nat) (s : RState) (scope : SelectScope)
    (rest : List SelectScope) (st en : Option Nat)
    (hs : s.scopes = scope :: rest) (hc : s.cteCounter ≤ 50) :
    (scope.anonymousTables = [] → scope.tables = [] →
       visit (n + 1) s (.field Option.none st en ["*"])
         = .error (.queryError "Cannot use '*' when there are no tables in the query"))
  ∧ (scope.anonymousTables.length + scope.tables.length > 1 →
       visit (n + 1) s (.field Option.none st en ["*"])
         = .error (.queryError "Cannot use '*' without table name when there are multiple tables in the query"))
  ∧ (∀ t, scope.anonymousTables = [t] → scope.tables = [] →
       visit (n + 1 + 1) s (.field Option.none st en ["*"])
         = .ok (.field (some (.asteriskT t)) st en ["*"], s))
  ∧ (∀ nm t, scope.anonymousTables = [] → scope.tables = [(nm, t)] →
       visit (n + 1 + 1) s (.field Option.none st en ["*"])
         = .ok (.field (some (.asteriskT t)) st en ["*"], s))
  ∧ (∀ t : DBTable, asterisk_columns (.tableT t)
       = .ok (t.asteriskKeys.map (fun k => .field Option.none Option.none Option.none [k])))
  ∧ (∀ a (t : DBTable), asterisk_columns (.tableAliasT a (.tableT t))
       = .ok (t.asteriskKeys.map (fun k => .field Option.none Option.none Option.none [k])))
  ∧ (∀ sc : SelectScope, asterisk_columns (.selectQueryT sc)
       = .ok (sc.columns.map (fun p => .field Option.none Option.none Option.none [p.1]))) := by
  have hdisp : ∀ k, visit (k + 1) s (.field Option.none st en ["*"])
      = visit_field k (visit k) s st en ["*"] := by
    intro k
    simp [visit, Expr.ty, Nat.not_lt.mpr hc, visitDispatch]
  refine ⟨?_, ?_, ?_, ?_, ?_, ?_, ?_⟩
  · intro hanon htab
    rw [hdisp, visit_field, hs]
    simp [hanon, htab, res_bind_err]
  · intro hcount
    rw [hdisp, visit_field, hs]
    simp [show (scope.anonymousTables.length + scope.tables.length == 0) = false by
            simpa using (by omega : ¬ scope.anonymousTables.length + scope.tables.length = 0),
          hcount, res_bind_err]
  · intro t hanon htab
    rw [hdisp, visit_field, hs]
    simp [hanon, htab, res_bind_ok, visit_field_tail, chainLoop, chainLoopBody]
  · intro nm t hanon htab
    rw [hdisp, visit_field, hs]
    simp [hanon, htab, res_bind_ok, visit_field_tail, chainLoop, chainLoopBody]
  · intro t
    simp [asterisk_columns, isBaseTableType, resolveDatabaseTable]
  · intro a t
    simp [asterisk_columns, isBaseTableType, resolveDatabaseTable]
  · intro sc
    simp [asterisk_columns, isBaseTableType, isSelectKind, unwrapSelectAlias]

/-- A scope with two named tables. -/
def twoTableScope : SelectScope :=
  .mk [] [] [("events", .tableT sampleEvents), ("x", .tableT sampleS3)] [] []

/-- A scope whose only table is one anonymous sub-select. -/
def oneAnonScope : SelectScope := .mk [] [] [] [.selectQueryT emptyScope] []

/-- A scope whose only table is the named `events` table. -/
def oneTableScope : SelectScope := .mk [] [] [("events", .tableT sampleEvents)] [] []

/-- Witness for C7: `*` with zero, two and one tables in scope, plus the
asterisk expansions of the `events` table and of a sub-select's columns. -/
theorem claim_C7_asterisk_resolution_witness :
    (visit 1 c1Strict (.field Option.none Option.none Option.none ["*"])
       = .error (.queryError "Cannot use '*' when there are no tables in the query"))
  ∧ (visit 1 (⟨[twoTableScope], 0, sampleCtx, .clickhouse⟩ : RState)
        (.field Option.none Option.none Option.none ["*"])
       = .error (.queryError "Cannot use '*' without table name when there are multiple tables in the query"))
  ∧ (visit 2 (⟨[oneAnonScope], 0, sampleCtx, .clickhouse⟩ : RState)
        (.field Option.none Option.none Option.none ["*"])
       = .ok (.field (some (.asteriskT (.selectQueryT emptyScope))) Option.none Option.none ["*"],
              ⟨[oneAnonScope], 0, sampleCtx, .clickhouse⟩))
  ∧ (visit 2 (⟨[oneTableScope], 0, sampleCtx, .clickhouse⟩ : RState)
        (.field Option.none Option.none Option.none ["*"])
       = .ok (.field (some (.asteriskT (.tableT sampleEvents))) Option.none Option.none ["*"],
              ⟨[oneTableScope], 0, sampleCtx, .clickhouse⟩))
  ∧ (asterisk_columns (.tableT sampleEvents)
       = .ok [.field Option.none Option.none Option.none ["id"],
              .field Option.none Option.none Option.none ["event"],
              .field Option.none Option.none Option.none ["properties"]]) := by
  refine ⟨?_, ?_, ?_, ?_, ?_⟩
  · exact (claim_C7_asterisk_resolution 0 c1Strict emptyScope [] Option.none Option.none
      rfl (by decide)).1 rfl rfl
  · exact (claim_C7_asterisk_resolution 0 _ twoTableScope [] Option.none Option.none
      rfl (by decide)).2.1 (by decide)
  · exact (claim_C7_asterisk_resolution 0 _ oneAnonScope [] Option.none Option.none
      rfl (by decide)).2.2.1 (.selectQueryT emptyScope) rfl rfl
  · exact (claim_C7_asterisk_resolution 0 _ oneTableScope [] Option.none Option.none
      rfl (by decide)).2.2.2.1 "events" (.tableT sampleEvents) rfl rfl
  · exact (claim_C7_asterisk_resolution 0 c1Strict emptyScope [] Option.none Option.none
      rfl (by decide)).2.2.2.2.1 sampleEvents

/-- Whether a resolved SELECT item is a visible (non-hidden) item whose
exported name is `a`. -/
def isVisibleNamed (a : String) (e : Expr) : Bool :=
  (exportedAlias e == some a) && !isHiddenAlias e

theorem registerColumn_stable (a : String) :
    ∀ (nodes : List Expr) (cols : List (String × Option HType)) (vis : List (String × Bool)),
    (lookupPair cols a).isSome = true → lookupPair vis a = some true →
    (∀ e ∈ nodes, isVisibleNamed a e = false) →
    lookupPair (nodes.foldl registerColumn (cols, vis)).1 a = lookupPair cols a := by
  intro nodes
  induction nodes with
  | nil => intro cols vis h1 h2 h3; simp
  | cons e rest ih =>
    intro cols vis h1 h2 h3
    simp only [List.foldl_cons]
    have hrest : ∀ x ∈ rest, isVisibleNamed a x = false := fun x hx => h3 x (by simp [hx])
    have he : isVisibleNamed a e = false := h3 e (by simp)
    match hexp : exportedAlias e with
    | Option.none =>
      rw [show registerColumn (cols, vis) e = (cols, vis) by simp [registerColumn, hexp]]
      exact ih cols vis h1 h2 hrest
    | some b =>
      by_cases hb : b = ""
      · rw [show registerColumn (cols, vis) e = (cols, vis) by
          simp [registerColumn, hexp, hb]]
        exact ih cols vis h1 h2 hrest
      · match hhid : isHiddenAlias e with
        | true =>
          by_cases hba : b = a
          · subst hba
            rw [show registerColumn (cols, vis) e = (cols, vis) by
              simp [registerColumn, hexp, hb, hhid, h2, Option.isNone_iff_eq_none]
              intro hc
              rw [hc] at h1
              simp at h1]
            exact ih cols vis h1 h2 hrest
          · rw [show registerColumn (cols, vis) e
                = if (lookupPair cols b).isNone || !((lookupPair vis b).getD false) then
                    (setPair cols b e.ty, setPair vis b false) else (cols, vis) by
              simp [registerColumn, hexp, hb, hhid]]
            by_cases hcond : (lookupPair cols b).isNone || !((lookupPair vis b).getD false)
            · rw [if_pos hcond]
              rw [ih _ _ (by rw [lookupPair_setPair_ne _ _ _ _ (Ne.symm hba)]; exact h1)
                    (by rw [lookupPair_setPair_ne _ _ _ _ (Ne.symm hba)]; exact h2) hrest]
              exact lookupPair_setPair_ne _ _ _ _ (Ne.symm hba)
            · rw [if_neg hcond]
              exact ih cols vis h1 h2 hrest
        | false =>
          have hba : b ≠ a := by
            intro hba
            subst hba
            simp [isVisibleNamed, hexp, hhid] at he
          rw [show registerColumn (cols, vis) e = (setPair cols b e.ty, setPair vis b true) by
            simp [registerColumn, hexp, hb, hhid]]
          rw [ih _ _ (by rw [lookupPair_setPair_ne _ _ _ _ (Ne.symm hba)]; exact h1)
                (by rw [lookupPair_setPair_ne _ _ _ _ (Ne.symm hba)]; exact h2) hrest]
          exact lookupPair_setPair_ne _ _ _ _ (Ne.symm hba)

theorem registerColumns_visible_last (a : String) (ha : a ≠ "") :
    ∀ (nodes : List Expr) (cols : List (String × Option HType)) (vis : List (String × Bool)) (eLast : Expr),
    (nodes.filter (isVisibleNamed a)).getLast? = some eLast →
    lookupPair (nodes.foldl registerColumn (cols, vis)).1 a = some eLast.ty := by
  intro nodes
  induction nodes with
  | nil => intro cols vis eLast h; simp at h
  | cons e rest ih =>
    intro cols vis eLast h
    simp only [List.foldl_cons]
    match hv : isVisibleNamed a e with
    | false =>
      rw [List.filter_cons_of_neg (by simp [hv])] at h
      exact ih _ _ eLast h
    | true =>
      rw [List.filter_cons_of_pos (by simp [hv])] at h
      have hexp : exportedAlias e = some a := by
        have := hv
        simp [isVisibleNamed] at this
        exact this.1
      have hhid : isHiddenAlias e = false := by
        have := hv
        simp [isVisibleNamed] at this
        exact this.2
      have hstep : registerColumn (cols, vis) e = (setPair cols a e.ty, setPair vis a true) := by
        simp [registerColumn, hexp, ha, hhid]
      rw [hstep]
      match hfr : rest.filter (isVisibleNamed a) with
      | x :: xs =>
        rw [hfr] at h
        rw [List.getLast?_cons_cons] at h
        rw [← hfr] at h
        exact ih _ _ eLast h
      | [] =>
        rw [hfr] at h
        simp [List.getLast?] at h
        subst h
        rw [registerColumn_stable a rest _ _
          (by rw [lookupPair_setPair_self]; rfl)
          (by rw [lookupPair_setPair_self])
          (by intro x hx
              by_contra hc
              have hmem : x ∈ rest.filter (isVisibleNamed a) := by
                rw [List.mem_filter]
                exact ⟨hx, by simpa using hc⟩
              rw [hfr] at hmem
              simp at hmem)]
        exact lookupPair_setPair_self _ _ _

/-- C6: in the `columns` map built by the SELECT registration loop, a hidden
alias never overwrites an entry registered by a visible item of the same name
(the step is the identity there), while a visible item always overwrites any
existing entry and marks the name visible; consequently, whatever the order
of the items, the registered entry for a name with at least one visible item
is the last visible item's type. Separately, re-defining an already
registered visible alias via `AS` raises a QueryError. -/
theorem claim_C6_visible_alias_dominates :
    (∀ cols vis (e : Expr) a, exportedAlias e = some a → isHiddenAlias e = true →
        (lookupPair cols a).isSome = true → lookupPair vis a = some true →
        registerColumn (cols, vis) e = (cols, vis))
  ∧ (∀ cols vis (e : Expr) a, exportedAlias e = some a → a ≠ "" → isHiddenAlias e = false →
        registerColumn (cols, vis) e = (setPair cols a e.ty, setPair vis a true)
        ∧ lookupPair (setPair cols a e.ty) a = some e.ty)
  ∧ (∀ (nodes : List Expr) a (eLast : Expr), a ≠ "" →
        (nodes.filter (isVisibleNamed a)).getLast? = some eLast →
        lookupPair (registerColumns nodes).1 a = some eLast.ty)
  ∧ (∀ n (s : RState) scope rest al (ex : Expr) t, s.scopes = scope :: rest →
        s.cteCounter ≤ 50 → lookupPair scope.aliases al = some t →
        visit (n + 1) s (.aliasE Option.none al ex false)
          = .error (.queryError ("Cannot redefine an alias with the name: " ++ al))) := by
  refine ⟨?_, ?_, ?_, ?_⟩
  · intro cols vis e a hexp hhid h1 h2
    have hcol : (lookupPair cols a).isNone = false := by
      rcases Option.isSome_iff_exists.mp h1 with ⟨v, hv⟩
      simp [hv]
    simp [registerColumn, hexp, hhid, h2, hcol]
  · intro cols vis e a hexp ha hhid
    exact ⟨by simp [registerColumn, hexp, ha, hhid], lookupPair_setPair_self _ _ _⟩
  · intro nodes a eLast ha h
    exact registerColumns_visible_last a ha nodes [] [] eLast h
  · intro n s scope rest al ex t hs hc halias
    simp [visit, Expr.ty, Nat.not_lt.mpr hc, visitDispatch, visit_alias, hs, halias]

/-- A hidden SELECT item exporting the name `x`. -/
def hiddenX : Expr :=
  .aliasE (some (.fieldAliasT "x" (.constT .integer))) "x" (.constant Option.none (.int 1)) true

/-- A visible SELECT item exporting the name `x` with a different type. -/
def visibleX : Expr :=
  .aliasE (some (.fieldAliasT "x" (.constT .boolean))) "x" (.constant Option.none (.bool true)) false

/-- A scope that has already registered the visible alias `x`. -/
def aliasXScope : SelectScope := .mk [("x", .fieldAliasT "x" (.constT .integer))] [] [] [] []

/-- Witness for C6: the hidden item does not overwrite a visible entry, the
visible item overwrites, in either order the visible item's type wins, and
redefining the registered visible alias `x` fails. -/
theorem claim_C6_visible_alias_dominates_witness :
    (registerColumn ([("x", some (HType.constT .boolean))], [("x", true)]) hiddenX
       = ([("x", some (HType.constT .boolean))], [("x", true)]))
  ∧ (lookupPair (registerColumns [hiddenX, visibleX]).1 "x" = some visibleX.ty)
  ∧ (lookupPair (registerColumns [visibleX, hiddenX]).1 "x" = some visibleX.ty)
  ∧ (visit 1 (⟨[aliasXScope], 0, sampleCtx, .clickhouse⟩ : RState)
        (.aliasE Option.none "x" (.constant Option.none (.int 2)) false)
       = .error (.queryError ("Cannot redefine an alias with the name: " ++ "x"))) := by
  refine ⟨?_, ?_, ?_, ?_⟩
  · exact claim_C6_visible_alias_dominates.1 _ _ hiddenX "x" rfl rfl rfl rfl
  · exact claim_C6_visible_alias_dominates.2.2.1 [hiddenX, visibleX] "x" visibleX
      (by decide) (by rfl)
  · exact claim_C6_visible_alias_dominates.2.2.1 [visibleX, hiddenX] "x" visibleX
      (by decide) (by rfl)
  · exact claim_C6_visible_alias_dominates.2.2.2 0 _ aliasXScope [] "x"
      (.constant Option.none (.int 2)) (.fieldAliasT "x" (.constT .integer))
      rfl (by decide) rfl

theorem bind_ok_inv {α β : Type} {x : Res α} {f : α → Res β} {b : β}
    (h : (x >>= f) = .ok b) : ∃ a, x = .ok a ∧ f a = .ok b := by
  cases x with
  | error e => rw [res_bind_err] at h; exact absurd h (by simp)
  | ok a => exact ⟨a, rfl, by rwa [res_bind_ok] at h⟩

theorem visit_join_preserves_own_join_type :
    ∀ (n : Nat) (s : RState) ty (jd : JoinData) (e' : Expr) (s' : RState),
    visit n s (.joinE ty jd) = .ok (e', s') →
    ∃ ty' jd', e' = .joinE ty' jd' ∧ JoinData.joinType jd' = jd.joinType := by
  intro n
  induction n with
  | zero => intro s ty jd e' s' h; simp [visit] at h
  | succ m ih =>
    intro s ty jd e' s' h
    rw [visit] at h
    cases ty with
    | some t => simp [Expr.ty] at h
    | none =>
      simp only [Expr.ty] at h
      by_cases hc : s.cteCounter > 50
      · simp [hc] at h
      · rw [if_neg hc] at h
        rw [visitDispatch, visit_join_expr] at h
        obtain ⟨table, al, jt, nj, c⟩ := jd
        simp only [JoinData.table, JoinData.al, JoinData.joinType, JoinData.nextJoin,
          JoinData.constraint] at h ⊢
        match hsc : s.scopes with
        | [] => rw [hsc] at h; simp at h
        | scope :: rest =>
          rw [hsc] at h
          match table with
          | .constant cty v => simp at h
          | .aliasE aty aal aex ahid => simp at h
          | .andE aty aes => simp at h
          | .orE aty aes => simp at h
          | .notE aty aex => simp at h
          | .compareE aty aop acl acr => simp at h
          | .joinE jty jjd => simp at h
          | .selectQ sty sdt =>
            simp only at h
            obtain ⟨⟨c₁, s₁⟩, hu, h⟩ := bind_ok_inv h
            obtain ⟨⟨table', s₂⟩, hsel, h⟩ := bind_ok_inv h
            obtain ⟨⟨tyOut, s₃⟩, hty, h⟩ := bind_ok_inv h
            obtain ⟨⟨nj', s₄⟩, hnj, h⟩ := bind_ok_inv h
            obtain ⟨⟨c₂, s₅⟩, hon, h⟩ := bind_ok_inv h
            simp only [Except.ok.injEq, Prod.mk.injEq] at h
            exact ⟨tyOut, _, h.1.symm, by simp [JoinData.joinType]⟩
          | .field fty fst fen tchain =>
            match tchain with
            | [] =>
              simp only at h
              rcases hcm : (Option.none : Option CTE) with _ | cte
              · simp at h
              · simp at h
            | [tname] =>
              simp only at h
              cases hcte : lookup_cte_by_name (scope :: rest) tname with
              | some cte =>
                rw [hcte] at h
                simp only at h
                obtain ⟨⟨resp, s₂⟩, hv, h⟩ := bind_ok_inv h
                simp only [Except.ok.injEq, Prod.mk.injEq] at h
                obtain ⟨ty'', jd'', hresp, hjt⟩ := ih _ _ _ _ _ hv
                simp only [JoinData.joinType] at hjt
                exact ⟨ty'', jd'', by rw [← h.1, hresp], hjt⟩
              | none =>
                rw [hcte] at h
                simp only at h
                split at h
                · simp at h
                · rename_i hdb
                  split at h
                  · simp at h
                  · obtain ⟨⟨c₁, s₁⟩, hu, h⟩ := bind_ok_inv h
                    obtain ⟨⟨nj₁, s₂⟩, hnj, h⟩ := bind_ok_inv h
                    obtain ⟨⟨c₂, s₃⟩, hon, h⟩ := bind_ok_inv h
                    simp only [Except.ok.injEq, Prod.mk.injEq] at h
                    exact ⟨_, _, h.1.symm, by simp [JoinData.joinType]⟩
            | tname :: t2 :: more =>
              simp only at h
              split at h
              · simp at h
              · rename_i hdb
                split at h
                · simp at h
                · obtain ⟨⟨c₁, s₁⟩, hu, h⟩ := bind_ok_inv h
                  obtain ⟨⟨nj₁, s₂⟩, hnj, h⟩ := bind_ok_inv h
                  obtain ⟨⟨c₂, s₃⟩, hon, h⟩ := bind_ok_inv h
                  simp only [Except.ok.injEq, Prod.mk.injEq] at h
                  exact ⟨_, _, h.1.symm, by simp [JoinData.joinType]⟩

/-- The `join_type` of an optional join node. -/
def joinTypeOf : Option Expr → Option String
  | some (.joinE _ jd) => jd.joinType
  | _ => Option.none

/-- C4: global-join promotion. (i) Visiting a join never rewrites that join's
own `join_type` — the only write is the look-ahead on `next_join`, so no
other place in the resolver rewrites join kinds; (ii) in the catalog-table
branch, the resolved join equals the input except that `next_join` is set to
`GLOBAL JOIN` exactly when `joinIsGlobal` holds of the current source's
resolved type and the visited next join (events table followed by an s3
table), and is the visited next join unchanged otherwise; (iii) when the
promotion condition holds on a join node, the rewritten next join's kind is
`GLOBAL JOIN`; (iv) a visited next join keeps its input `join_type`, so a
non-promoted join's kind is left unchanged. -/
theorem claim_C4_global_join_promotion :
    (∀ (n : Nat) (s : RState) ty (jd : JoinData) (e' : Expr) (s' : RState),
       visit n s (.joinE ty jd) = .ok (e', s') →
       ∃ ty' jd', e' = .joinE ty' jd' ∧ JoinData.joinType jd' = jd.joinType)
  ∧ (∀ (n : Nat) (s : RState) (scope : SelectScope) (rest : List SelectScope)
       (fty : Option HType) (fst fen : Option Nat) (tableName : String) (tRest : List String)
       (al jt : Option String) (nj : Option Expr) (c : Option JoinConstraint)
       (tableAlias : String) (dbt : DBTable) (nodeTableType nodeType : HType)
       (c₁ : Option JoinConstraint) (s₁ : RState) (nj₁ : Option Expr) (s₂ : RState),
       s.scopes = scope :: rest → s.cteCounter ≤ 50 →
       lookup_cte_by_name s.scopes tableName = Option.none →
       orTableName al tableName = tableAlias →
       lookupPair scope.tables tableAlias = Option.none →
       s.ctx.database.get_table tableName = some dbt →
       nodeTableType = (if dbt.isLazy then HType.lazyTableT dbt else HType.tableT dbt) →
       nodeType = (if tableAlias != tableName || dbt.isFunctionCall then
           HType.tableAliasT tableAlias nodeTableType else nodeTableType) →
       visitConstraintIf "USING" (visit n) s c = .ok (c₁, s₁) →
       visitOptWith (visit n)
           (s₁.updateTopScope (fun sc => sc.setTables (setPair sc.tables tableAlias nodeType))) nj
         = .ok (nj₁, s₂) →
       visit (n + 1) s (.joinE Option.none (.mk (.field fty fst fen (tableName :: tRest)) al jt nj c))
         = (visitConstraintIf "ON" (visit n) s₂ c₁).map (fun p =>
             (.joinE (some nodeType) (.mk (.field (some nodeTableType) fst fen (tableName :: tRest))
                (functionTableOutAlias nodeType al) jt
                (if joinIsGlobal nodeType nj₁ then setNextJoinType nj₁ (some "GLOBAL JOIN") else nj₁)
                p.1), p.2)))
  ∧ (∀ (nodeType : HType) ty (jd : JoinData),
       joinIsGlobal nodeType (some (.joinE ty jd)) = true →
       joinTypeOf (setNextJoinType (some (.joinE ty jd)) (some "GLOBAL JOIN")) = some "GLOBAL JOIN")
  ∧ (∀ (n : Nat) (s₁ : RState) njty (njd : JoinData) (nj₁ : Expr) (s₂ : RState),
       visit n s₁ (.joinE njty njd) = .ok (nj₁, s₂) →
       joinTypeOf (some nj₁) = njd.joinType) := by
  refine ⟨visit_join_preserves_own_join_type, ?_, ?_, ?_⟩
  · intro n s scope rest fty fst fen tableName tRest al jt nj c tableAlias dbt nodeTableType
      nodeType c₁ s₁ nj₁ s₂ hs hc hcte halias hfree hdb hntt hnt hu hnj
    rw [show visit (n + 1) s (.joinE Option.none (.mk (.field fty fst fen (tableName :: tRest)) al jt nj c))
        = visit_join_expr (visit n) s (.mk (.field fty fst fen (tableName :: tRest)) al jt nj c) by
      simp [visit, Expr.ty, Nat.not_lt.mpr hc, visitDispatch]]
    rw [visit_join_expr, hs]
    simp only [JoinData.table, JoinData.al, JoinData.joinType, JoinData.nextJoin,
      JoinData.constraint]
    have hcte' : lookup_cte_by_name (scope :: rest) tableName = Option.none := by
      rw [← hs]; exact hcte
    match htr : tRest with
    | [] =>
      simp only [hcte']
      rw [halias]
      simp only [hfree, hdb]
      simp only [Option.isSome_none, Bool.false_eq_true, if_false]
      rw [← hntt, ← hnt]
      rw [hu]
      simp only [res_bind_ok]
      rw [hnj]
      simp only [res_bind_ok]
      exact res_bind_ok_eq_map _ _
    | t2 :: more =>
      rw [halias]
      simp only [hfree, hdb]
      simp only [Option.isSome_none, Bool.false_eq_true, if_false]
      rw [← hntt, ← hnt]
      rw [hu]
      simp only [res_bind_ok]
      rw [hnj]
      simp only [res_bind_ok]
      exact res_bind_ok_eq_map _ _
  · intro nodeType ty jd hg
    obtain ⟨table, al, oldJt, nj', c'⟩ := jd
    simp [setNextJoinType, joinTypeOf, JoinData.joinType]
  · intro n s₁ njty njd nj₁ s₂ hv
    obtain ⟨ty', jd', hshape, hjt⟩ := visit_join_preserves_own_join_type n s₁ njty njd nj₁ s₂ hv
    rw [hshape]
    simpa [joinTypeOf] using hjt

/-- The next join of a resolved join expression. -/
def nextJoinOf : Expr → Option Expr
  | .joinE _ jd => jd.nextJoin
  | _ => Option.none

/-- `FROM events e JOIN s3_table x`, unresolved. -/
def c4JoinPos : JoinData :=
  .mk (.field Option.none Option.none Option.none ["events"]) (some "e") Option.none
    (some (.joinE Option.none (.mk (.field Option.none Option.none Option.none ["s3_table"])
      (some "x") (some "JOIN") Option.none Option.none)))
    Option.none

/-- `FROM s3_table x JOIN events e`, unresolved. -/
def c4JoinNeg : JoinData :=
  .mk (.field Option.none Option.none Option.none ["s3_table"]) (some "x") Option.none
    (some (.joinE Option.none (.mk (.field Option.none Option.none Option.none ["events"])
      (some "e") (some "JOIN") Option.none Option.none)))
    Option.none

/-- A resolver state with one (initially empty) SELECT scope over `sampleDb`. -/
def c4State : RState := ⟨[emptyScope], 0, sampleCtx, .clickhouse⟩

/-- Witness for C4: `FROM events e JOIN s3_table x` resolves with the next
join promoted to `GLOBAL JOIN`; the same pattern with `s3_table` as the outer
source keeps the written `JOIN` kind. -/
theorem claim_C4_global_join_promotion_witness :
    (∃ e' s', visit 10 c4State (.joinE Option.none c4JoinPos) = .ok (e', s')
       ∧ joinTypeOf (nextJoinOf e') = some "GLOBAL JOIN")
  ∧ (∃ e' s', visit 10 c4State (.joinE Option.none c4JoinNeg) = .ok (e', s')
       ∧ joinTypeOf (nextJoinOf e') = some "JOIN") := by
  constructor
  · have h := claim_C4_global_join_promotion.2.1 9 c4State emptyScope []
      Option.none Option.none Option.none "events" [] (some "e") Option.none
      (c4JoinPos.nextJoin) Option.none "e" sampleEvents
      (.tableT sampleEvents) (.tableAliasT "e" (.tableT sampleEvents))
      Option.none _ _ _
      rfl (by decide) rfl rfl rfl rfl rfl rfl rfl rfl
    exact ⟨_, _, h, rfl⟩
  · have h := claim_C4_global_join_promotion.2.1 9 c4State emptyScope []
      Option.none Option.none Option.none "s3_table" [] (some "x") Option.none
      (c4JoinNeg.nextJoin) Option.none "x" sampleS3
      (.tableT sampleS3) (.tableAliasT "x" (.tableT sampleS3))
      Option.none _ _ _
      rfl (by decide) rfl rfl rfl rfl rfl rfl rfl rfl
    exact ⟨_, _, h, rfl⟩

theorem visit_compare_ok_shape :
    ∀ (n : Nat) (s : RState) (op : CompareOp) (l r e' : Expr) (s' : RState),
    visit n s (.compareE Option.none op l r) = .ok (e', s') →
    ∃ op' l' r', e' = .compareE (some (.constT .boolean)) op' l' r' := by
  intro n
  induction n with
  | zero => intro s op l r e' s' h; simp [visit] at h
  | succ m ih =>
    intro s op l r e' s' h
    rw [visit] at h
    simp only [Expr.ty] at h
    by_cases hc : s.cteCounter > 50
    · simp [hc] at h
    · rw [if_neg hc, visitDispatch, visit_compare_operation] at h
      by_cases hA : (s.ctx.inCohortVia == "subquery" && op == CompareOp.InCohort) = true
      · rw [if_pos hA] at h
        exact ih _ _ _ _ _ _ h
      · rw [if_neg (by simpa using hA)] at h
        by_cases hB : (s.ctx.inCohortVia == "subquery" && op == CompareOp.NotInCohort) = true
        · rw [if_pos hB] at h
          exact ih _ _ _ _ _ _ h
        · rw [if_neg (by simpa using hB)] at h
          obtain ⟨⟨l', s₁⟩, hl, h⟩ := bind_ok_inv h
          obtain ⟨⟨r', s₂⟩, hr, h⟩ := bind_ok_inv h
          simp only [Except.ok.injEq, Prod.mk.injEq] at h
          exact ⟨_, l', r', h.1.symm⟩

/-- C5: Global-IN promotion and Boolean typing. (i) A comparison whose
operator is `IN` (respectively `NOT IN`) resolves with the operator promoted
to `GLOBAL IN` (respectively `GLOBAL NOT IN`) exactly when the resolved left
operand is a column of the `events` catalog table and the resolved right
operand is a SELECT over an `s3` external table, and with the operator left
unchanged otherwise; the node's type is `Boolean`. (ii)/(iii) `And`, `Or` and
`Not` nodes resolve with type `Boolean`. (iv) Every successfully resolved
comparison (cohort rewrites included) carries type `Boolean`. -/
theorem claim_C5_global_in_promotion :
    (∀ (n : Nat) (s : RState) (op : CompareOp) (l r l' r' : Expr) (s₁ s₂ : RState),
       s.cteCounter ≤ 50 → (op = .In ∨ op = .NotIn) →
       visit n s l = .ok (l', s₁) → visit n s₁ r = .ok (r', s₂) →
       visit (n + 1) s (.compareE Option.none op l r)
         = .ok (.compareE (some (.constT .boolean))
             (if is_events_table l' && is_s3_cluster r' then
                (if op == CompareOp.In then CompareOp.GlobalIn else CompareOp.GlobalNotIn)
              else op) l' r', s₂))
  ∧ (∀ (n : Nat) (s : RState) (es es' : List Expr) (s' : RState),
       s.cteCounter ≤ 50 → visitListWith (visit n) s es = .ok (es', s') →
       visit (n + 1) s (.andE Option.none es) = .ok (.andE (some (.constT .boolean)) es', s')
       ∧ visit (n + 1) s (.orE Option.none es) = .ok (.orE (some (.constT .boolean)) es', s'))
  ∧ (∀ (n : Nat) (s : RState) (ex ex' : Expr) (s' : RState),
       s.cteCounter ≤ 50 → visit n s ex = .ok (ex', s') →
       visit (n + 1) s (.notE Option.none ex) = .ok (.notE (some (.constT .boolean)) ex', s'))
  ∧ (∀ (n : Nat) (s : RState) (op : CompareOp) (l r e' : Expr) (s' : RState),
       visit n s (.compareE Option.none op l r) = .ok (e', s') →
       e'.ty = some (.constT .boolean)) := by
  refine ⟨?_, ?_, ?_, ?_⟩
  · intro n s op l r l' r' s₁ s₂ hc hop hl hr
    have h1 : (op == CompareOp.InCohort) = false := by rcases hop with h | h <;> simp [h]
    have h2 : (op == CompareOp.NotInCohort) = false := by rcases hop with h | h <;> simp [h]
    have h3 : (op == CompareOp.In || op == CompareOp.NotIn) = true := by
      rcases hop with h | h <;> simp [h]
    rw [show visit (n + 1) s (.compareE Option.none op l r)
        = visit_compare_operation (visit n) s op l r by
      simp [visit, Expr.ty, Nat.not_lt.mpr hc, visitDispatch]]
    rw [visit_compare_operation]
    simp only [h1, h2, Bool.and_false, Bool.false_eq_true, if_false]
    rw [hl]
    simp only [res_bind_ok]
    rw [hr]
    simp only [res_bind_ok, h3, Bool.true_and]
  · intro n s es es' s' hc hes
    constructor
    · rw [show visit (n + 1) s (.andE Option.none es) = visit_and (visit n) s es by
        simp [visit, Expr.ty, Nat.not_lt.mpr hc, visitDispatch]]
      rw [visit_and, hes]
      simp [res_bind_ok]
    · rw [show visit (n + 1) s (.orE Option.none es) = visit_or (visit n) s es by
        simp [visit, Expr.ty, Nat.not_lt.mpr hc, visitDispatch]]
      rw [visit_or, hes]
      simp [res_bind_ok]
  · intro n s ex ex' s' hc hex
    rw [show visit (n + 1) s (.notE Option.none ex) = visit_not (visit n) s ex by
      simp [visit, Expr.ty, Nat.not_lt.mpr hc, visitDispatch]]
    rw [visit_not, hex]
    simp [res_bind_ok]
  · intro n s op l r e' s' h
    obtain ⟨op', l', r', hshape⟩ := visit_compare_ok_shape n s op l r e' s' h
    rw [hshape]
    rfl

/-- A state whose single scope has the `events` table registered. -/
def c5State : RState := ⟨[oneTableScope], 0, sampleCtx, .clickhouse⟩

/-- The left operand `events.id`. -/
def c5Left : Expr := .field Option.none Option.none Option.none ["events", "id"]

/-- The right operand `(SELECT id FROM s3_table)`. -/
def c5RightS3 : Expr :=
  .selectQ Option.none (.mk Option.none [.field Option.none Option.none Option.none ["id"]]
    (some (.joinE Option.none (.mk (.field Option.none Option.none Option.none ["s3_table"])
      Option.none Option.none Option.none Option.none)))
    Option.none Option.none)

/-- A right operand over the `events` table itself (not s3). -/
def c5RightEvents : Expr :=
  .selectQ Option.none (.mk Option.none [.field Option.none Option.none Option.none ["id"]]
    (some (.joinE Option.none (.mk (.field Option.none Option.none Option.none ["events"])
      (some "e2") Option.none Option.none Option.none)))
    Option.none Option.none)

/-- Witness for C5: `events.id IN (SELECT id FROM s3_table)` promotes to
`GLOBAL IN` with type Boolean; the same membership test against an
events-backed SELECT keeps `IN`; an `And` of constants resolves Boolean. -/
theorem claim_C5_global_in_promotion_witness :
    (∃ l' r' s₂, visit 31 c5State (.compareE Option.none .In c5Left c5RightS3)
       = .ok (.compareE (some (.constT .boolean)) .GlobalIn l' r', s₂))
  ∧ (∃ l' r' s₂, visit 31 c5State (.compareE Option.none .In c5Left c5RightEvents)
       = .ok (.compareE (some (.constT .boolean)) .In l' r', s₂))
  ∧ (∃ es' s', visit 31 c5State (.andE Option.none [.constant Option.none (.bool true)])
       = .ok (.andE (some (.constT .boolean)) es', s')) := by
  refine ⟨?_, ?_, ?_⟩
  · have h := claim_C5_global_in_promotion.1 30 c5State .In c5Left c5RightS3 _ _ _ _
      (by decide) (Or.inl rfl) rfl rfl
    exact ⟨_, _, _, h⟩
  · have h := claim_C5_global_in_promotion.1 30 c5State .In c5Left c5RightEvents _ _ _ _
      (by decide) (Or.inl rfl) rfl rfl
    exact ⟨_, _, _, h⟩
  · have h := (claim_C5_global_in_promotion.2.1 30 c5State
      [.constant Option.none (.bool true)] _ _ (by decide) rfl).1
    exact ⟨_, _, h⟩

mutual

/-- Whether every node of an expression tree is untyped (`type is None`
everywhere, including CTE bodies and join/select children). -/
def exprUntyped : Expr → Bool
  | .constant ty _ => ty.isNone
  | .field ty _ _ _ => ty.isNone
  | .aliasE ty _ ex _ => ty.isNone && exprUntyped ex
  | .andE ty es => ty.isNone && exprListUntyped es
  | .orE ty es => ty.isNone && exprListUntyped es
  | .notE ty ex => ty.isNone && exprUntyped ex
  | .compareE ty _ l r => ty.isNone && exprUntyped l && exprUntyped r
  | .selectQ ty sd => ty.isNone && selectDataUntyped sd
  | .joinE ty jd => ty.isNone && joinDataUntyped jd

def exprListUntyped : List Expr → Bool
  | [] => true
  | e :: es => exprUntyped e && exprListUntyped es

def exprOptUntyped : Option Expr → Bool
  | Option.none => true
  | some e => exprUntyped e

def selectDataUntyped : SelectData → Bool
  | .mk ctes sel selFrom whereE _ =>
      cteListOptUntyped ctes && exprListUntyped sel && exprOptUntyped selFrom
        && exprOptUntyped whereE

def cteListOptUntyped : Option (List CTE) → Bool
  | Option.none => true
  | some cs => cteListUntyped cs

def cteListUntyped : List CTE → Bool
  | [] => true
  | c :: cs => cteUntyped c && cteListUntyped cs

def cteUntyped : CTE → Bool
  | .mk _ e _ => exprUntyped e

def joinDataUntyped : JoinData → Bool
  | .mk table _ _ nextJoin constraint =>
      exprUntyped table && exprOptUntyped nextJoin && constraintOptUntyped constraint

def constraintOptUntyped : Option JoinConstraint → Bool
  | Option.none => true
  | some (.mk e _) => exprUntyped e

/-- Whether a resolver type is "safe": every expression embedded in it (via
expression fields or scopes) is untyped, so re-visiting such an expression
cannot hit the re-resolution guard. -/
def htypeUntyped : HType → Bool
  | .constT _ => true
  | .tableT t => dbTableUntyped t
  | .lazyTableT t => dbTableUntyped t
  | .tableAliasT _ tt => htypeUntyped tt
  | .selectQueryT sc => scopeUntyped sc
  | .selectUnionT ts => htypeListUntyped ts
  | .selectQueryAliasT _ t => htypeUntyped t
  | .selectViewT _ _ t => htypeUntyped t
  | .fieldT _ tt => htypeUntyped tt
  | .propertyT _ ft => htypeUntyped ft
  | .expressionFieldT _ e tt => exprUntyped e && htypeUntyped tt
  | .fieldAliasT _ t => htypeUntyped t
  | .fieldTraverserT _ tt => htypeUntyped tt
  | .asteriskT tt => htypeUntyped tt
  | .unresolvedFieldT _ => true

def htypeOptUntyped : Option HType → Bool
  | Option.none => true
  | some t => htypeUntyped t

def htypeListUntyped : List HType → Bool
  | [] => true
  | t :: ts => htypeUntyped t && htypeListUntyped ts

def pairsHTypeUntyped : List (String × HType) → Bool
  | [] => true
  | (_, t) :: rest => htypeUntyped t && pairsHTypeUntyped rest

def colsPairsUntyped : List (String × Option HType) → Bool
  | [] => true
  | (_, t) :: rest => htypeOptUntyped t && colsPairsUntyped rest

def scopeUntyped : SelectScope → Bool
  | .mk aliases columns tables anon ctes =>
      pairsHTypeUntyped aliases && colsPairsUntyped columns && pairsHTypeUntyped tables
        && htypeListUntyped anon && cteListUntyped ctes

def dbTableUntyped : DBTable → Bool
  | .mk _ fields _ _ _ _ _ => dbFieldPairsUntyped fields

def dbFieldPairsUntyped : List (String × DBField) → Bool
  | [] => true
  | (_, f) :: rest => dbFieldUntyped f && dbFieldPairsUntyped rest

def dbFieldUntyped : DBField → Bool
  | .scalar _ => true
  | .json => true
  | .expressionField e => exprUntyped e
  | .traverser _ => true

end

/-- Whether every scope of a stack is untyped-safe. -/
def scopesUntyped : List SelectScope → Bool
  | [] => true
  | sc :: rest => scopeUntyped sc && scopesUntyped rest

/-- Whether every catalog table of a database is untyped-safe. -/
def tablePairsUntyped : List (String × DBTable) → Bool
  | [] => true
  | (_, t) :: rest => dbTableUntyped t && tablePairsUntyped rest

/-- The re-resolution-soundness invariant of a resolver state: every scope on
the stack, every catalog table, and every cohort-expander output is
untyped-safe. -/
def StateInv (s : RState) : Prop :=
  scopesUntyped s.scopes = true ∧ tablePairsUntyped s.ctx.database.tables = true
    ∧ ∀ e, exprUntyped e = true → exprUntyped (s.ctx.cohortQueryNode e) = true

/-- The per-fuel induction property: a visit of an untyped node over an
invariant-satisfying state never raises the re-resolution `ResolutionError`,
and on success it preserves the invariant and returns a node whose attached
type is untyped-safe. -/
def VisitorNoRerun (v : Visitor) : Prop :=
  ∀ s e, StateInv s → exprUntyped e = true →
    (∀ a b, v s e ≠ .error (.resolutionError (alreadyResolvedMsg a b))) ∧
    (∀ e' s', v s e = .ok (e', s') → StateInv s' ∧ htypeOptUntyped e'.ty = true)

theorem lookupPair_dbFieldPairs {l : List (String × DBField)} {k : String} {f : DBField}
    (hl : dbFieldPairsUntyped l = true) (h : lookupPair l k = some f) : dbFieldUntyped f = true := by
  induction l with
  | nil => simp [lookupPair, List.find?] at h
  | cons p rest ih =>
    obtain ⟨k', f'⟩ := p
    simp only [dbFieldPairsUntyped, Bool.and_eq_true] at hl
    simp only [lookupPair, List.find?] at h ih
    cases hb : (k' == k) with
    | true => rw [hb] at h; simp at h; rw [← h]; exact hl.1
    | false => rw [hb] at h; exact ih hl.2 h

theorem lookupPair_pairsHType {l : List (String × HType)} {k : String} {t : HType}
    (hl : pairsHTypeUntyped l = true) (h : lookupPair l k = some t) : htypeUntyped t = true := by
  induction l with
  | nil => simp [lookupPair, List.find?] at h
  | cons p rest ih =>
    obtain ⟨k', t'⟩ := p
    simp only [pairsHTypeUntyped, Bool.and_eq_true] at hl
    simp only [lookupPair, List.find?] at h ih
    cases hb : (k' == k) with
    | true => rw [hb] at h; simp at h; rw [← h]; exact hl.1
    | false => rw [hb] at h; exact ih hl.2 h

theorem setPair_pairsHType {l : List (String × HType)} {k : String} {v : HType}
    (hl : pairsHTypeUntyped l = true) (hv : htypeUntyped v = true) :
    pairsHTypeUntyped (setPair l k v) = true := by
  induction l with
  | nil => simp [setPair, pairsHTypeUntyped, hv]
  | cons p rest ih =>
    obtain ⟨k', v'⟩ := p
    simp only [pairsHTypeUntyped, Bool.and_eq_true] at hl
    simp only [setPair]
    cases hb : (k' == k) with
    | true => simp [pairsHTypeUntyped, hv, hl.2]
    | false => simp [pairsHTypeUntyped, hl.1, ih hl.2]

theorem setPair_colsPairs {l : List (String × Option HType)} {k : String} {v : Option HType}
    (hl : colsPairsUntyped l = true) (hv : htypeOptUntyped v = true) :
    colsPairsUntyped (setPair l k v) = true := by
  induction l with
  | nil => simp [setPair, colsPairsUntyped, hv]
  | cons p rest ih =>
    obtain ⟨k', v'⟩ := p
    simp only [colsPairsUntyped, Bool.and_eq_true] at hl
    simp only [setPair]
    cases hb : (k' == k) with
    | true => simp [colsPairsUntyped, hv, hl.2]
    | false => simp [colsPairsUntyped, hl.1, ih hl.2]

theorem resolveDatabaseTable_untyped :
    ∀ (t : HType) {tb : DBTable}, htypeUntyped t = true → resolveDatabaseTable t = some tb →
    dbTableUntyped tb = true
  | .tableT t', tb, ht, h => by
      simp [resolveDatabaseTable] at h
      rw [← h]
      simpa [htypeUntyped] using ht
  | .lazyTableT t', tb, ht, h => by
      simp [resolveDatabaseTable] at h
      rw [← h]
      simpa [htypeUntyped] using ht
  | .tableAliasT a inner, tb, ht, h =>
      resolveDatabaseTable_untyped inner (by simpa [htypeUntyped] using ht) h
  | .constT _, _, _, h => by simp [resolveDatabaseTable] at h
  | .selectQueryT _, _, _, h => by simp [resolveDatabaseTable] at h
  | .selectUnionT _, _, _, h => by simp [resolveDatabaseTable] at h
  | .selectQueryAliasT _ _, _, _, h => by simp [resolveDatabaseTable] at h
  | .selectViewT _ _ _, _, _, h => by simp [resolveDatabaseTable] at h
  | .fieldT _ _, _, _, h => by simp [resolveDatabaseTable] at h
  | .propertyT _ _, _, _, h => by simp [resolveDatabaseTable] at h
  | .expressionFieldT _ _ _, _, _, h => by simp [resolveDatabaseTable] at h
  | .fieldAliasT _ _, _, _, h => by simp [resolveDatabaseTable] at h
  | .fieldTraverserT _ _, _, _, h => by simp [resolveDatabaseTable] at h
  | .asteriskT _, _, _, h => by simp [resolveDatabaseTable] at h
  | .unresolvedFieldT _, _, _, h => by simp [resolveDatabaseTable] at h

theorem dbFieldType_untyped {owner : HType} {name : String} {f : DBField}
    (ho : htypeUntyped owner = true) (hf : dbFieldUntyped f = true) :
    htypeUntyped (dbFieldType owner name f) = true := by
  cases f with
  | scalar c => simpa [dbFieldType, htypeUntyped] using ho
  | json => simpa [dbFieldType, htypeUntyped] using ho
  | expressionField e =>
    simp only [dbFieldType, htypeUntyped, Bool.and_eq_true]
    exact ⟨by simpa [dbFieldUntyped] using hf, ho⟩
  | traverser chain => simpa [dbFieldType, htypeUntyped] using ho

theorem selectScopeOf_untyped :
    ∀ (t : HType) {sc : SelectScope}, htypeUntyped t = true → selectScopeOf t = some sc →
    scopeUntyped sc = true
  | .selectQueryT sc', sc, ht, h => by
      simp [selectScopeOf] at h
      rw [← h]
      simpa [htypeUntyped] using ht
  | .selectQueryAliasT a inner, sc, ht, h =>
      selectScopeOf_untyped inner (by simpa [htypeUntyped] using ht) h
  | .selectViewT a vn inner, sc, ht, h =>
      selectScopeOf_untyped inner (by simpa [htypeUntyped] using ht) h
  | .selectUnionT (t0 :: trest), sc, ht, h =>
      selectScopeOf_untyped t0
        (by simp only [htypeUntyped, htypeListUntyped, Bool.and_eq_true] at ht; exact ht.1)
        (by simpa [selectScopeOf] using h)
  | .selectUnionT [], _, _, h => by simp [selectScopeOf] at h
  | .constT _, _, _, h => by simp [selectScopeOf] at h
  | .tableT _, _, _, h => by simp [selectScopeOf] at h
  | .lazyTableT _, _, _, h => by simp [selectScopeOf] at h
  | .tableAliasT _ _, _, _, h => by simp [selectScopeOf] at h
  | .fieldT _ _, _, _, h => by simp [selectScopeOf] at h
  | .propertyT _ _, _, _, h => by simp [selectScopeOf] at h
  | .expressionFieldT _ _ _, _, _, h => by simp [selectScopeOf] at h
  | .fieldAliasT _ _, _, _, h => by simp [selectScopeOf] at h
  | .fieldTraverserT _ _, _, _, h => by simp [selectScopeOf] at h
  | .asteriskT _, _, _, h => by simp [selectScopeOf] at h
  | .unresolvedFieldT _, _, _, h => by simp [selectScopeOf] at h

theorem dbTable_fields_untyped (t : DBTable) (h : dbTableUntyped t = true) :
    dbFieldPairsUntyped t.fields = true := by
  cases t
  simpa [dbTableUntyped, DBTable.fields] using h

theorem getChild_untyped :
    ∀ (t : HType) {name : String} {t' : HType}, htypeUntyped t = true →
    getChild t name = some t' → htypeUntyped t' = true
  | .tableT tb, name, t', ht, h => by
      simp only [getChild, Option.map_eq_some'] at h
      obtain ⟨f, hf, rfl⟩ := h
      exact dbFieldType_untyped ht
        (lookupPair_dbFieldPairs (dbTable_fields_untyped tb (by simpa [htypeUntyped] using ht)) hf)
  | .lazyTableT tb, name, t', ht, h => by
      simp only [getChild, Option.map_eq_some'] at h
      obtain ⟨f, hf, rfl⟩ := h
      exact dbFieldType_untyped ht
        (lookupPair_dbFieldPairs (dbTable_fields_untyped tb (by simpa [htypeUntyped] using ht)) hf)
  | .tableAliasT a inner, name, t', ht, h => by
      simp only [getChild] at h
      match hdb : resolveDatabaseTable inner with
      | Option.none => rw [hdb] at h; simp at h
      | some tb =>
        rw [hdb] at h
        simp only [Option.map_eq_some'] at h
        obtain ⟨f, hf, rfl⟩ := h
        exact dbFieldType_untyped ht
          (lookupPair_dbFieldPairs
            (dbTable_fields_untyped tb
              (resolveDatabaseTable_untyped inner (by simpa [htypeUntyped] using ht) hdb)) hf)
  | .selectQueryT sc, name, t', ht, h => by
      simp only [getChild] at h
      split at h
      · simp at h
        rw [← h]
        simpa [htypeUntyped] using ht
      · simp at h
  | .selectQueryAliasT a inner, name, t', ht, h => by
      simp only [getChild] at h
      match hsc : selectScopeOf inner with
      | Option.none => rw [hsc] at h; simp at h
      | some sc =>
        rw [hsc] at h
        split at h
        · simp at h
          rw [← h.2]
          simpa [htypeUntyped] using ht
        · simp at h
  | .selectViewT a vn inner, name, t', ht, h => by
      simp only [getChild] at h
      match hsc : selectScopeOf inner with
      | Option.none => rw [hsc] at h; simp at h
      | some sc =>
        rw [hsc] at h
        split at h
        · simp at h
          rw [← h.2]
          simpa [htypeUntyped] using ht
        · simp at h
  | .fieldT nm owner, name, t', ht, h => by
      simp only [getChild] at h
      match hdb : resolveDatabaseTable owner with
      | Option.none => rw [hdb] at h; simp at h
      | some tb =>
        rw [hdb] at h
        simp only at h
        match hlf : lookupPair tb.fields nm with
        | Option.none => rw [hlf] at h; simp at h
        | some .json =>
          rw [hlf] at h
          simp at h
          rw [← h]
          simpa [htypeUntyped] using ht
        | some (.scalar c) => rw [hlf] at h; simp at h
        | some (.expressionField e) => rw [hlf] at h; simp at h
        | some (.traverser c) => rw [hlf] at h; simp at h
  | .propertyT ch f, name, t', ht, h => by
      simp only [getChild] at h
      simp at h
      rw [← h]
      simpa [htypeUntyped] using ht
  | .fieldAliasT a inner, name, t', ht, h =>
      getChild_untyped inner (by simpa [htypeUntyped] using ht) h
  | .unresolvedFieldT nm, name, t', ht, h => by
      simp only [getChild] at h
      simp at h
      rw [← h]
      simp [htypeUntyped]
  | .constT _, _, _, _, h => by simp [getChild] at h
  | .selectUnionT _, _, _, _, h => by simp [getChild] at h
  | .expressionFieldT _ _ _, _, _, _, h => by simp [getChild] at h
  | .fieldTraverserT _ _, _, _, _, h => by simp [getChild] at h
  | .asteriskT _, _, _, _, h => by simp [getChild] at h

theorem chainLoopBody_untyped (full : List String)
    (recurse : HType → List String → List HType → Res HType)
    (hrec : ∀ t2 ch pr tt, htypeUntyped t2 = true → htypeListUntyped pr = true →
        recurse t2 ch pr = .ok tt → htypeUntyped tt = true)
    (loopType : HType) (chain : List String) (prev : List HType) (t : HType)
    (hl : htypeUntyped loopType = true) (hp : htypeListUntyped prev = true)
    (h : chainLoopBody full recurse loopType chain prev = .ok t) : htypeUntyped t = true := by
  rw [chainLoopBody.eq_def] at h
  simp only at h
  have hp' : htypeListUntyped (loopType :: prev) = true := by
    simp [htypeListUntyped, hl, hp]
  split at h
  · simp at h
    rw [← h]
    exact hl
  · rename_i next0 restChain
    split at h
    · split at h
      · rename_i hd hd1 lt prevRest heq
        have hlpr : htypeListUntyped (lt :: prevRest) = true := by
          rw [heq] at hp'
          simp only [htypeListUntyped, Bool.and_eq_true] at hp' ⊢
          exact hp'.2.2
        have hlt : htypeUntyped lt = true := by
          simp only [htypeListUntyped, Bool.and_eq_true] at hlpr
          exact hlpr.1
        split at h
        · rename_i nc rc
          split at h
          · rename_i t2 hgc
            exact hrec _ _ _ _ (getChild_untyped lt hlt hgc) hlpr h
          · simp at h
        · simp at h
      · simp at h
    · split at h
      · rename_i t2 hgc
        exact hrec _ _ _ _ (getChild_untyped loopType hl hgc) hp' h
      · simp at h

theorem chainLoop_untyped (full : List String) :
    ∀ (k : Nat) (seed : HType) (chain : List String) (prev : List HType) (t : HType),
    htypeUntyped seed = true → htypeListUntyped prev = true →
    chainLoop full k seed chain prev = .ok t → htypeUntyped t = true := by
  intro k
  induction k with
  | zero => intro seed chain prev t _ _ h; simp [chainLoop] at h
  | succ m ih =>
    intro seed chain prev t hseed hprev h
    match seed, hseed, h with
    | .fieldTraverserT tChain tOwner, hseed, h =>
      simp only [chainLoop] at h
      exact ih _ _ _ _ (by simpa [htypeUntyped] using hseed) hprev h
    | .constT c, hseed, h => exact chainLoopBody_untyped full _ ih _ _ _ _ hseed hprev (by simpa only [chainLoop] using h)
    | .tableT x, hseed, h => exact chainLoopBody_untyped full _ ih _ _ _ _ hseed hprev (by simpa only [chainLoop] using h)
    | .lazyTableT x, hseed, h => exact chainLoopBody_untyped full _ ih _ _ _ _ hseed hprev (by simpa only [chainLoop] using h)
    | .tableAliasT a x, hseed, h => exact chainLoopBody_untyped full _ ih _ _ _ _ hseed hprev (by simpa only [chainLoop] using h)
    | .selectQueryT x, hseed, h => exact chainLoopBody_untyped full _ ih _ _ _ _ hseed hprev (by simpa only [chainLoop] using h)
    | .selectUnionT x, hseed, h => exact chainLoopBody_untyped full _ ih _ _ _ _ hseed hprev (by simpa only [chainLoop] using h)
    | .selectQueryAliasT a x, hseed, h => exact chainLoopBody_untyped full _ ih _ _ _ _ hseed hprev (by simpa only [chainLoop] using h)
    | .selectViewT a v x, hseed, h => exact chainLoopBody_untyped full _ ih _ _ _ _ hseed hprev (by simpa only [chainLoop] using h)
    | .fieldT a x, hseed, h => exact chainLoopBody_untyped full _ ih _ _ _ _ hseed hprev (by simpa only [chainLoop] using h)
    | .propertyT a x, hseed, h => exact chainLoopBody_untyped full _ ih _ _ _ _ hseed hprev (by simpa only [chainLoop] using h)
    | .expressionFieldT a b x, hseed, h => exact chainLoopBody_untyped full _ ih _ _ _ _ hseed hprev (by simpa only [chainLoop] using h)
    | .fieldAliasT a x, hseed, h => exact chainLoopBody_untyped full _ ih _ _ _ _ hseed hprev (by simpa only [chainLoop] using h)
    | .asteriskT x, hseed, h => exact chainLoopBody_untyped full _ ih _ _ _ _ hseed hprev (by simpa only [chainLoop] using h)
    | .unresolvedFieldT a, hseed, h => exact chainLoopBody_untyped full _ ih _ _ _ _ hseed hprev (by simpa only [chainLoop] using h)

/-! ## Guard-safety: machinery for the re-resolution guard -/

/-- The output condition of a well-behaved visit: the state invariant holds
and the returned node's attached type is untyped-safe. -/
def VOut (p : Expr × RState) : Prop := StateInv p.2 ∧ htypeOptUntyped p.1.ty = true

/-- A result that is never the re-resolution guard's `ResolutionError`, and
whose successful value satisfies `P`. -/
def GuardSafe {α : Type} (r : Res α) (P : α → Prop) : Prop :=
  (∀ a b, r ≠ .error (.resolutionError (alreadyResolvedMsg a b))) ∧
  (∀ x, r = .ok x → P x)

theorem GuardSafe.ok {α : Type} {a : α} {P : α → Prop} (h : P a) : GuardSafe (Except.ok a) P :=
  ⟨fun _ _ hc => by simp at hc, fun _ hx => (Except.ok.inj hx) ▸ h⟩

theorem GuardSafe.errQ {α : Type} (m : String) (P : α → Prop) :
    GuardSafe (Except.error (RFail.queryError m)) P :=
  ⟨fun _ _ hc => by simp at hc, fun _ hx => by simp at hx⟩

theorem GuardSafe.errA {α : Type} (m : String) (P : α → Prop) :
    GuardSafe (Except.error (RFail.impossibleAST m)) P :=
  ⟨fun _ _ hc => by simp at hc, fun _ hx => by simp at hx⟩

theorem GuardSafe.errIdx {α : Type} (P : α → Prop) :
    GuardSafe (Except.error RFail.indexError) P :=
  ⟨fun _ _ hc => by simp at hc, fun _ hx => by simp at hx⟩

theorem GuardSafe.errFuel {α : Type} (P : α → Prop) :
    GuardSafe (Except.error RFail.fuel) P :=
  ⟨fun _ _ hc => by simp at hc, fun _ hx => by simp at hx⟩

/-- The guard's message always begins with `'T'`. -/
theorem alreadyResolvedMsg_head (a b : String) :
    (alreadyResolvedMsg a b).data.head? = some 'T' := by
  simp only [alreadyResolvedMsg, String.data_append]
  rfl

/-- A message whose first character is not `'T'` is never the guard's. -/
theorem headC_ne_guard {m : String} (c : Char) (hc : m.data.head? = some c) (hne : c ≠ 'T')
    (a b : String) : m ≠ alreadyResolvedMsg a b := by
  intro h
  rw [h, alreadyResolvedMsg_head] at hc
  exact hne (Option.some.inj hc).symm

theorem GuardSafe.errRes {α : Type} {m : String} (c : Char) (hc : m.data.head? = some c)
    (hne : c ≠ 'T') (P : α → Prop) :
    GuardSafe (Except.error (RFail.resolutionError m)) P := by
  refine ⟨?_, fun _ hx => by simp at hx⟩
  intro a b h
  simp only [Except.error.injEq, RFail.resolutionError.injEq] at h
  exact headC_ne_guard c hc hne a b h

theorem bind_err_inv {α β : Type} {x : Res α} {f : α → Res β} {g : RFail}
    (h : (x >>= f) = .error g) : x = .error g ∨ ∃ a, x = .ok a ∧ f a = .error g := by
  cases x with
  | error e =>
    rw [res_bind_err] at h
    left
    rw [Except.error.inj h]
  | ok a => exact Or.inr ⟨a, rfl, by rwa [res_bind_ok] at h⟩

theorem GuardSafe.bind {α β : Type} {x : Res α} {f : α → Res β} {P : α → Prop} {Q : β → Prop}
    (hx : GuardSafe x P) (hf : ∀ a, P a → GuardSafe (f a) Q) : GuardSafe (x >>= f) Q := by
  constructor
  · intro a b h
    rcases bind_err_inv h with h1 | ⟨a1, ha1, hf1⟩
    · exact hx.1 a b h1
    · exact (hf a1 (hx.2 a1 ha1)).1 a b hf1
  · intro y hy
    rcases bind_ok_inv hy with ⟨a1, ha1, hf1⟩
    exact (hf a1 (hx.2 a1 ha1)).2 y hf1

theorem GuardSafe.of_eq {α : Type} {r r' : Res α} {P : α → Prop} (h : r = r')
    (hg : GuardSafe r' P) : GuardSafe r P := h ▸ hg

/-- A `VisitorNoRerun` visitor, read as guard-safety of each call. -/
theorem visitor_gs {v : Visitor} (hv : VisitorNoRerun v) {s : RState} {e : Expr}
    (hs : StateInv s) (he : exprUntyped e = true) : GuardSafe (v s e) VOut := by
  obtain ⟨h1, h2⟩ := hv s e hs he
  refine ⟨h1, ?_⟩
  intro x hx
  exact ⟨(h2 x.1 x.2 (by rw [Prod.mk.eta]; exact hx)).1,
         (h2 x.1 x.2 (by rw [Prod.mk.eta]; exact hx)).2⟩

/-! ## Untypedness transport lemmas -/

theorem exprUntyped_ty_none {e : Expr} (h : exprUntyped e = true) : e.ty = Option.none := by
  cases e <;>
    simp only [exprUntyped, Bool.and_eq_true, Option.isNone_iff_eq_none, Expr.ty] at h ⊢ <;>
    first
    | exact h
    | exact h.1
    | exact h.1.1

theorem htypeOptUntyped_tyD {e : Expr} (h : htypeOptUntyped e.ty = true) :
    htypeUntyped (tyD e) = true := by
  cases hty : e.ty with
  | none => unfold tyD; rw [hty]; rfl
  | some t =>
    unfold tyD
    rw [hty]
    rw [hty] at h
    simpa [htypeOptUntyped] using h

theorem htypeListUntyped_mem : ∀ {l : List HType} {t : HType},
    htypeListUntyped l = true → t ∈ l → htypeUntyped t = true := by
  intro l
  induction l with
  | nil => intro t _ ht; simp at ht
  | cons x xs ih =>
    intro t hl ht
    simp only [htypeListUntyped, Bool.and_eq_true] at hl
    rcases List.mem_cons.mp ht with h | h
    · rw [h]; exact hl.1
    · exact ih hl.2 h

theorem cteListUntyped_mem : ∀ {l : List CTE} {c : CTE},
    cteListUntyped l = true → c ∈ l → cteUntyped c = true := by
  intro l
  induction l with
  | nil => intro c _ hc; simp at hc
  | cons x xs ih =>
    intro c hl hc
    simp only [cteListUntyped, Bool.and_eq_true] at hl
    rcases List.mem_cons.mp hc with h | h
    · rw [h]; exact hl.1
    · exact ih hl.2 h

theorem htypeListUntyped_append {a b : List HType} (ha : htypeListUntyped a = true)
    (hb : htypeListUntyped b = true) : htypeListUntyped (a ++ b) = true := by
  induction a with
  | nil => simpa using hb
  | cons x xs ih =>
    simp only [htypeListUntyped, Bool.and_eq_true] at ha
    simp only [List.cons_append, htypeListUntyped, Bool.and_eq_true]
    exact ⟨ha.1, ih ha.2⟩

theorem pairsHTypeUntyped_map_snd {l : List (String × HType)}
    (h : pairsHTypeUntyped l = true) : htypeListUntyped (l.map (fun p => p.2)) = true := by
  induction l with
  | nil => rfl
  | cons p rest ih =>
    obtain ⟨k, t⟩ := p
    simp only [pairsHTypeUntyped, Bool.and_eq_true] at h
    simpa [htypeListUntyped, h.1] using ih h.2

theorem lookupPair_tablePairs {l : List (String × DBTable)} {k : String} {t : DBTable}
    (hl : tablePairsUntyped l = true) (h : lookupPair l k = some t) : dbTableUntyped t = true := by
  induction l with
  | nil => simp [lookupPair, List.find?] at h
  | cons p rest ih =>
    obtain ⟨k', t'⟩ := p
    simp only [tablePairsUntyped, Bool.and_eq_true] at hl
    simp only [lookupPair, List.find?] at h ih
    cases hb : (k' == k) with
    | true => rw [hb] at h; simp at h; rw [← h]; exact hl.1
    | false => rw [hb] at h; exact ih hl.2 h

theorem scopeUntyped_parts (sc : SelectScope) (h : scopeUntyped sc = true) :
    pairsHTypeUntyped sc.aliases = true ∧ colsPairsUntyped sc.columns = true ∧
    pairsHTypeUntyped sc.tables = true ∧ htypeListUntyped sc.anonymousTables = true ∧
    cteListUntyped sc.ctes = true := by
  cases sc with
  | mk a c t an cs =>
    simp only [scopeUntyped, Bool.and_eq_true, SelectScope.aliases, SelectScope.columns,
      SelectScope.tables, SelectScope.anonymousTables, SelectScope.ctes] at h ⊢
    exact ⟨h.1.1.1.1, h.1.1.1.2, h.1.1.2, h.1.2, h.2⟩

theorem scopeUntyped_setAliases {sc : SelectScope} {l : List (String × HType)}
    (h : scopeUntyped sc = true) (hl : pairsHTypeUntyped l = true) :
    scopeUntyped (sc.setAliases l) = true := by
  obtain ⟨_, hc, ht, han, hcs⟩ := scopeUntyped_parts sc h
  cases sc with
  | mk a c t an cs =>
    simp only [SelectScope.columns, SelectScope.tables, SelectScope.anonymousTables,
      SelectScope.ctes] at hc ht han hcs
    simp [SelectScope.setAliases, scopeUntyped, hl, hc, ht, han, hcs]

theorem scopeUntyped_setColumns {sc : SelectScope} {l : List (String × Option HType)}
    (h : scopeUntyped sc = true) (hl : colsPairsUntyped l = true) :
    scopeUntyped (sc.setColumns l) = true := by
  obtain ⟨ha, _, ht, han, hcs⟩ := scopeUntyped_parts sc h
  cases sc with
  | mk a c t an cs =>
    simp only [SelectScope.aliases, SelectScope.tables, SelectScope.anonymousTables,
      SelectScope.ctes] at ha ht han hcs
    simp [SelectScope.setColumns, scopeUntyped, hl, ha, ht, han, hcs]

theorem scopeUntyped_setTables {sc : SelectScope} {l : List (String × HType)}
    (h : scopeUntyped sc = true) (hl : pairsHTypeUntyped l = true) :
    scopeUntyped (sc.setTables l) = true := by
  obtain ⟨ha, hc, _, han, hcs⟩ := scopeUntyped_parts sc h
  cases sc with
  | mk a c t an cs =>
    simp only [SelectScope.aliases, SelectScope.columns, SelectScope.anonymousTables,
      SelectScope.ctes] at ha hc han hcs
    simp [SelectScope.setTables, scopeUntyped, hl, ha, hc, han, hcs]

theorem scopeUntyped_setAnonymousTables {sc : SelectScope} {l : List HType}
    (h : scopeUntyped sc = true) (hl : htypeListUntyped l = true) :
    scopeUntyped (sc.setAnonymousTables l) = true := by
  obtain ⟨ha, hc, ht, _, hcs⟩ := scopeUntyped_parts sc h
  cases sc with
  | mk a c t an cs =>
    simp only [SelectScope.aliases, SelectScope.columns, SelectScope.tables,
      SelectScope.ctes] at ha hc ht hcs
    simp [SelectScope.setAnonymousTables, scopeUntyped, hl, ha, hc, ht, hcs]

/-! ## State-invariant preservation -/

theorem StateInv_setCtr {s : RState} (hs : StateInv s) (k : Nat) :
    StateInv { s with cteCounter := k } := hs

theorem StateInv_addError {s : RState} (hs : StateInv s) (a b : Option Nat) (m : String) :
    StateInv { s with ctx := s.ctx.add_error a b m } := hs

theorem StateInv_addNotice {s : RState} (hs : StateInv s) (a b : Option Nat) (m : String) :
    StateInv { s with ctx := s.ctx.add_notice a b m } := hs

theorem StateInv_push {s : RState} {sc : SelectScope} (hs : StateInv s)
    (hsc : scopeUntyped sc = true) : StateInv (s.pushScope sc) := by
  obtain ⟨h1, h2, h3⟩ := hs
  exact ⟨by simp [RState.pushScope, scopesUntyped, hsc, h1], h2, h3⟩

theorem StateInv_updateTop {s : RState} {f : SelectScope → SelectScope} (hs : StateInv s)
    (hf : ∀ sc, scopeUntyped sc = true → scopeUntyped (f sc) = true) :
    StateInv (s.updateTopScope f) := by
  obtain ⟨h1, h2, h3⟩ := hs
  rw [RState.updateTopScope.eq_def]
  split
  · exact ⟨h1, h2, h3⟩
  · rename_i sc rest hsc
    rw [hsc] at h1
    simp only [scopesUntyped, Bool.and_eq_true] at h1
    exact ⟨by simp [scopesUntyped, hf sc h1.1, h1.2], h2, h3⟩

theorem lookup_cte_untyped : ∀ (scopes : List SelectScope) (name : String) {cte : CTE},
    scopesUntyped scopes = true → lookup_cte_by_name scopes name = some cte →
    exprUntyped cte.expr = true := by
  intro scopes
  induction scopes with
  | nil => intro name cte _ h; simp [lookup_cte_by_name] at h
  | cons sc rest ih =>
    intro name cte hs h
    simp only [scopesUntyped, Bool.and_eq_true] at hs
    simp only [lookup_cte_by_name] at h
    cases hf : sc.ctes.find? (fun c => c.name == name) with
    | some c =>
      rw [hf] at h
      simp at h
      rw [← h]
      have hmem := List.mem_of_find?_eq_some hf
      have hcu := cteListUntyped_mem (scopeUntyped_parts sc hs.1).2.2.2.2 hmem
      cases c with
      | mk nm e k => simpa [cteUntyped, CTE.expr] using hcu
    | none =>
      rw [hf] at h
      exact ih name hs.2 h

/-- Whether every node of a resolved list carries an untyped-safe type. -/
def tysListSafe : List Expr → Bool
  | [] => true
  | e :: es => htypeOptUntyped e.ty && tysListSafe es

theorem tysListSafe_append {a b : List Expr} (ha : tysListSafe a = true)
    (hb : tysListSafe b = true) : tysListSafe (a ++ b) = true := by
  induction a with
  | nil => simpa using hb
  | cons x xs ih =>
    simp only [tysListSafe, Bool.and_eq_true] at ha
    simp only [List.cons_append, tysListSafe, Bool.and_eq_true]
    exact ⟨ha.1, ih ha.2⟩

theorem registerColumn_cols {acc : List (String × Option HType) × List (String × Bool)}
    {e : Expr} (h : colsPairsUntyped acc.1 = true) (he : htypeOptUntyped e.ty = true) :
    colsPairsUntyped (registerColumn acc e).1 = true := by
  obtain ⟨cols, vis⟩ := acc
  simp only [registerColumn]
  split
  · exact h
  · split
    · exact h
    · split
      · split
        · exact setPair_colsPairs h he
        · exact h
      · exact setPair_colsPairs h he

theorem foldl_registerColumn_cols :
    ∀ (nodes : List Expr) (acc : List (String × Option HType) × List (String × Bool)),
    colsPairsUntyped acc.1 = true → tysListSafe nodes = true →
    colsPairsUntyped (nodes.foldl registerColumn acc).1 = true := by
  intro nodes
  induction nodes with
  | nil => intro acc h _; simpa using h
  | cons e es ih =>
    intro acc h hn
    simp only [tysListSafe, Bool.and_eq_true] at hn
    simp only [List.foldl_cons]
    exact ih _ (registerColumn_cols h hn.1) hn.2

theorem registerColumns_cols {nodes : List Expr} (h : tysListSafe nodes = true) :
    colsPairsUntyped (registerColumns nodes).1 = true :=
  foldl_registerColumn_cols nodes ([], []) rfl h

theorem lookup_field_gs (scope : SelectScope) (name : String) (hsc : scopeUntyped scope = true) :
    GuardSafe (lookup_field_by_name scope name) (fun ot => htypeOptUntyped ot = true) := by
  obtain ⟨ha, hc, ht, han, hcte⟩ := scopeUntyped_parts scope hsc
  have howners : htypeListUntyped (scope.tables.map (fun p => p.2) ++ scope.anonymousTables) = true :=
    htypeListUntyped_append (pairsHTypeUntyped_map_snd ht) han
  simp only [lookup_field_by_name]
  split
  · rename_i t hal
    exact GuardSafe.ok (by simpa [htypeOptUntyped] using lookupPair_pairsHType ha hal)
  · split
    · exact GuardSafe.ok rfl
    · rename_i o heq
      have hmem : o ∈ scope.tables.map (fun p => p.2) ++ scope.anonymousTables := by
        have hself : o ∈ [o] := by simp
        rw [← heq] at hself
        exact List.mem_of_mem_filter hself
      have ho : htypeUntyped o = true := htypeListUntyped_mem howners hmem
      refine GuardSafe.ok ?_
      cases hgc : getChild o name with
      | none => rfl
      | some t => simpa [htypeOptUntyped] using getChild_untyped o ho hgc
    · exact GuardSafe.errQ _ _

theorem chainLoopBody_gs (full : List String)
    (recurse : HType → List String → List HType → Res HType)
    (hrec : ∀ t2 ch pr, htypeUntyped t2 = true → htypeListUntyped pr = true →
        GuardSafe (recurse t2 ch pr) (fun t => htypeUntyped t = true))
    (loopType : HType) (chain : List String) (prev : List HType)
    (hl : htypeUntyped loopType = true) (hp : htypeListUntyped prev = true) :
    GuardSafe (chainLoopBody full recurse loopType chain prev) (fun t => htypeUntyped t = true) := by
  rw [chainLoopBody.eq_def]
  simp only
  have hp' : htypeListUntyped (loopType :: prev) = true := by
    simp [htypeListUntyped, hl, hp]
  split
  · exact GuardSafe.ok hl
  · rename_i next0 restChain
    split
    · split
      · rename_i hd hd1 lt prevRest heq
        have hlpr : htypeListUntyped (lt :: prevRest) = true := by
          rw [heq] at hp'
          simp only [htypeListUntyped, Bool.and_eq_true] at hp' ⊢
          exact hp'.2.2
        have hlt : htypeUntyped lt = true := by
          simp only [htypeListUntyped, Bool.and_eq_true] at hlpr
          exact hlpr.1
        split
        · rename_i nc rc
          split
          · rename_i t2 hgc
            exact hrec _ _ _ (getChild_untyped lt hlt hgc) hlpr
          · exact GuardSafe.errRes 'C' (by simp only [String.data_append]; rfl) (by decide) _
        · exact GuardSafe.errIdx _
      · exact GuardSafe.errIdx _
    · split
      · rename_i t2 hgc
        exact hrec _ _ _ (getChild_untyped loopType hl hgc) hp'
      · exact GuardSafe.errRes 'C' (by simp only [String.data_append]; rfl) (by decide) _

theorem chainLoop_gs (full : List String) :
    ∀ (k : Nat) (seed : HType) (chain : List String) (prev : List HType),
    htypeUntyped seed = true → htypeListUntyped prev = true →
    GuardSafe (chainLoop full k seed chain prev) (fun t => htypeUntyped t = true) := by
  intro k
  induction k with
  | zero =>
    intro seed chain prev _ _
    simp only [chainLoop]
    exact GuardSafe.errFuel _
  | succ m ih =>
    intro seed chain prev hseed hprev
    match seed, hseed with
    | .fieldTraverserT tChain tOwner, hseed =>
      simp only [chainLoop]
      exact ih tOwner (tChain ++ chain) prev (by simpa [htypeUntyped] using hseed) hprev
    | .constT c, hseed =>
      simp only [chainLoop]
      exact chainLoopBody_gs full (chainLoop full m) ih _ chain prev hseed hprev
    | .tableT x, hseed =>
      simp only [chainLoop]
      exact chainLoopBody_gs full (chainLoop full m) ih _ chain prev hseed hprev
    | .lazyTableT x, hseed =>
      simp only [chainLoop]
      exact chainLoopBody_gs full (chainLoop full m) ih _ chain prev hseed hprev
    | .tableAliasT a x, hseed =>
      simp only [chainLoop]
      exact chainLoopBody_gs full (chainLoop full m) ih _ chain prev hseed hprev
    | .selectQueryT x, hseed =>
      simp only [chainLoop]
      exact chainLoopBody_gs full (chainLoop full m) ih _ chain prev hseed hprev
    | .selectUnionT x, hseed =>
      simp only [chainLoop]
      exact chainLoopBody_gs full (chainLoop full m) ih _ chain prev hseed hprev
    | .selectQueryAliasT a x, hseed =>
      simp only [chainLoop]
      exact chainLoopBody_gs full (chainLoop full m) ih _ chain prev hseed hprev
    | .selectViewT a w x, hseed =>
      simp only [chainLoop]
      exact chainLoopBody_gs full (chainLoop full m) ih _ chain prev hseed hprev
    | .fieldT a x, hseed =>
      simp only [chainLoop]
      exact chainLoopBody_gs full (chainLoop full m) ih _ chain prev hseed hprev
    | .propertyT a x, hseed =>
      simp only [chainLoop]
      exact chainLoopBody_gs full (chainLoop full m) ih _ chain prev hseed hprev
    | .expressionFieldT a b x, hseed =>
      simp only [chainLoop]
      exact chainLoopBody_gs full (chainLoop full m) ih _ chain prev hseed hprev
    | .fieldAliasT a x, hseed =>
      simp only [chainLoop]
      exact chainLoopBody_gs full (chainLoop full m) ih _ chain prev hseed hprev
    | .asteriskT x, hseed =>
      simp only [chainLoop]
      exact chainLoopBody_gs full (chainLoop full m) ih _ chain prev hseed hprev
    | .unresolvedFieldT a, hseed =>
      simp only [chainLoop]
      exact chainLoopBody_gs full (chainLoop full m) ih _ chain prev hseed hprev

/-- A list of bare identifier fields is untyped. -/
theorem exprListUntyped_map_field {α : Type} (l : List α) (g : α → List String) :
    exprListUntyped (l.map (fun x => Expr.field Option.none Option.none Option.none (g x))) = true := by
  induction l with
  | nil => rfl
  | cons x xs ih => simpa [exprListUntyped, exprUntyped] using ih

theorem asterisk_columns_gs (tt : HType) :
    GuardSafe (asterisk_columns tt) (fun cols => exprListUntyped cols = true) := by
  rw [asterisk_columns.eq_def]
  split
  · split
    · exact GuardSafe.ok (exprListUntyped_map_field _ _)
    · exact GuardSafe.errIdx _
  · split
    · refine @GuardSafe.bind _ _ _ _ (fun _ => True) _ ?_ ?_
      · split
        · exact GuardSafe.errIdx _
        · exact GuardSafe.ok trivial
        · exact GuardSafe.ok trivial
      · intro sel _
        split
        · exact GuardSafe.ok (exprListUntyped_map_field _ _)
        · exact GuardSafe.errQ _ _
    · exact GuardSafe.errQ _ _

mutual

theorem resolve_constant_gs : ∀ (c : PyConst),
    GuardSafe (resolve_constant_data_type c) (fun _ => True)
  | .none => GuardSafe.ok trivial
  | .bool b => GuardSafe.ok trivial
  | .int i => GuardSafe.ok trivial
  | .float => GuardSafe.ok trivial
  | .str s => GuardSafe.ok trivial
  | .list items => by
      simp only [resolve_constant_data_type]
      refine GuardSafe.bind (resolve_constant_list_gs items) ?_
      intro tys _
      split
      · exact GuardSafe.ok trivial
      · exact GuardSafe.ok trivial
  | .tuple items => by
      simp only [resolve_constant_data_type]
      exact GuardSafe.bind (resolve_constant_list_gs items) (fun tys _ => GuardSafe.ok trivial)
  | .datetime => GuardSafe.ok trivial
  | .date => GuardSafe.ok trivial
  | .uuid => GuardSafe.ok trivial
  | .other t => GuardSafe.errA _ _

theorem resolve_constant_list_gs : ∀ (l : List PyConst),
    GuardSafe (resolve_constant_list l) (fun _ => True)
  | [] => GuardSafe.ok trivial
  | c :: cs => by
      simp only [resolve_constant_list]
      exact GuardSafe.bind (resolve_constant_gs c) (fun t _ =>
        GuardSafe.bind (resolve_constant_list_gs cs) (fun ts _ => GuardSafe.ok trivial))

end

/-- Whether a constraint is still safe for the given visiting pass: a
constraint of that kind must carry an untyped expression. -/
def constraintSafeFor (kind : String) : Option JoinConstraint → Bool
  | Option.none => true
  | some c => if c.constraintType == kind then exprUntyped c.expr else true

theorem visitConstraintIf_using_inv {v : Visitor} (hv : VisitorNoRerun v) (s : RState)
    (c : Option JoinConstraint) (hs : StateInv s) (hc : constraintOptUntyped c = true) :
    GuardSafe (visitConstraintIf "USING" v s c)
      (fun p => StateInv p.2 ∧ constraintSafeFor "ON" p.1 = true) := by
  cases c with
  | none => exact GuardSafe.ok ⟨hs, rfl⟩
  | some jc =>
    cases jc with
    | mk e k =>
      have he : exprUntyped e = true := by simpa [constraintOptUntyped] using hc
      simp only [visitConstraintIf, JoinConstraint.constraintType, JoinConstraint.expr]
      split
      · rename_i hk
        refine GuardSafe.bind (visitor_gs hv hs he) ?_
        intro p hp
        obtain ⟨e', s'⟩ := p
        refine GuardSafe.ok ⟨hp.1, ?_⟩
        have hkk : k = "USING" := by simpa using hk
        have hne : (("USING" : String) == "ON") = false := by decide
        simp [constraintSafeFor, JoinConstraint.constraintType, hkk, hne]
      · refine GuardSafe.ok ⟨hs, ?_⟩
        simp only [constraintSafeFor, JoinConstraint.constraintType, JoinConstraint.expr]
        split
        · exact he
        · rfl

theorem visitConstraintIf_on_inv {v : Visitor} (hv : VisitorNoRerun v) (s : RState)
    (c : Option JoinConstraint) (hs : StateInv s) (hc : constraintSafeFor "ON" c = true) :
    GuardSafe (visitConstraintIf "ON" v s c) (fun p => StateInv p.2) := by
  cases c with
  | none => exact GuardSafe.ok hs
  | some jc =>
    cases jc with
    | mk e k =>
      simp only [visitConstraintIf, JoinConstraint.constraintType, JoinConstraint.expr]
      split
      · rename_i hk
        have he : exprUntyped e = true := by
          simpa [constraintSafeFor, JoinConstraint.constraintType, JoinConstraint.expr, hk]
            using hc
        refine GuardSafe.bind (visitor_gs hv hs he) ?_
        intro p hp
        obtain ⟨e', s'⟩ := p
        exact GuardSafe.ok hp.1
      · exact GuardSafe.ok hs

theorem visitOptWith_inv {v : Visitor} (hv : VisitorNoRerun v) (s : RState) (oe : Option Expr)
    (hs : StateInv s) (ho : exprOptUntyped oe = true) :
    GuardSafe (visitOptWith v s oe) (fun p => StateInv p.2) := by
  cases oe with
  | none => exact GuardSafe.ok hs
  | some e =>
    simp only [visitOptWith]
    refine GuardSafe.bind (visitor_gs hv hs (by simpa [exprOptUntyped] using ho)) ?_
    intro p hp
    obtain ⟨e', s'⟩ := p
    exact GuardSafe.ok hp.1

theorem visitListWith_inv {v : Visitor} (hv : VisitorNoRerun v) :
    ∀ (es : List Expr) (s : RState), StateInv s → exprListUntyped es = true →
    GuardSafe (visitListWith v s es) (fun p => StateInv p.2 ∧ tysListSafe p.1 = true) := by
  intro es
  induction es with
  | nil => intro s hs _; exact GuardSafe.ok ⟨hs, rfl⟩
  | cons e rest ih =>
    intro s hs hu
    simp only [exprListUntyped, Bool.and_eq_true] at hu
    simp only [visitListWith]
    refine GuardSafe.bind (visitor_gs hv hs hu.1) ?_
    intro p hp
    obtain ⟨e', s'⟩ := p
    refine GuardSafe.bind (ih s' hp.1 hu.2) ?_
    intro q hq
    obtain ⟨es', s''⟩ := q
    refine GuardSafe.ok ⟨hq.1, ?_⟩
    simp only [tysListSafe, Bool.and_eq_true]
    exact ⟨hp.2, hq.2⟩

theorem visit_constant_inv (s : RState) (value : PyConst) (hs : StateInv s) :
    GuardSafe (visit_constant s value) VOut := by
  simp only [visit_constant]
  refine GuardSafe.bind (resolve_constant_gs value) ?_
  intro t _
  exact GuardSafe.ok ⟨hs, rfl⟩

theorem visit_and_inv {v : Visitor} (hv : VisitorNoRerun v) (s : RState) (es : List Expr)
    (hs : StateInv s) (hu : exprListUntyped es = true) :
    GuardSafe (visit_and v s es) VOut := by
  simp only [visit_and]
  refine GuardSafe.bind (visitListWith_inv hv es s hs hu) ?_
  intro p hp
  obtain ⟨es', s'⟩ := p
  exact GuardSafe.ok ⟨hp.1, rfl⟩

theorem visit_or_inv {v : Visitor} (hv : VisitorNoRerun v) (s : RState) (es : List Expr)
    (hs : StateInv s) (hu : exprListUntyped es = true) :
    GuardSafe (visit_or v s es) VOut := by
  simp only [visit_or]
  refine GuardSafe.bind (visitListWith_inv hv es s hs hu) ?_
  intro p hp
  obtain ⟨es', s'⟩ := p
  exact GuardSafe.ok ⟨hp.1, rfl⟩

theorem visit_not_inv {v : Visitor} (hv : VisitorNoRerun v) (s : RState) (ex : Expr)
    (hs : StateInv s) (hu : exprUntyped ex = true) :
    GuardSafe (visit_not v s ex) VOut := by
  simp only [visit_not]
  refine GuardSafe.bind (visitor_gs hv hs hu) ?_
  intro p hp
  obtain ⟨ex', s'⟩ := p
  exact GuardSafe.ok ⟨hp.1, rfl⟩

theorem visit_compare_operation_inv {v : Visitor} (hv : VisitorNoRerun v) (s : RState)
    (op : CompareOp) (left right : Expr) (hs : StateInv s)
    (hl : exprUntyped left = true) (hr : exprUntyped right = true) :
    GuardSafe (visit_compare_operation v s op left right) VOut := by
  simp only [visit_compare_operation]
  split
  · exact visitor_gs hv hs (by simp [exprUntyped, hl, hs.2.2 right hr])
  · split
    · exact visitor_gs hv hs (by simp [exprUntyped, hl, hs.2.2 right hr])
    · refine GuardSafe.bind (visitor_gs hv hs hl) ?_
      intro p hp
      obtain ⟨l', s₁⟩ := p
      refine GuardSafe.bind (visitor_gs hv hp.1 hr) ?_
      intro q hq
      obtain ⟨r', s₂⟩ := q
      exact GuardSafe.ok ⟨hq.1, rfl⟩

theorem visit_alias_inv {v : Visitor} (hv : VisitorNoRerun v) (s : RState) (al : String)
    (ex : Expr) (hidden : Bool) (hs : StateInv s) (hx : exprUntyped ex = true) :
    GuardSafe (visit_alias v s al ex hidden) VOut := by
  rw [visit_alias.eq_def]
  split
  · exact GuardSafe.errQ _ _
  · split
    · exact GuardSafe.errQ _ _
    · split
      · exact GuardSafe.errA _ _
      · refine GuardSafe.bind (visitor_gs hv hs hx) ?_
        intro p hp
        obtain ⟨ex', s₁⟩ := p
        have hty : htypeUntyped (HType.fieldAliasT al
            (match ex'.ty with | some t => t | Option.none => .constT .unknown)) = true := by
          simp only [htypeUntyped]
          exact htypeOptUntyped_tyD hp.2
        refine GuardSafe.ok ⟨?_, ?_⟩
        · cases hidden with
          | true => exact hp.1
          | false =>
            exact StateInv_updateTop hp.1 (fun sc2 hsc2 =>
              scopeUntyped_setAliases hsc2
                (setPair_pairsHType (scopeUntyped_parts sc2 hsc2).1 hty))
        · simpa [Expr.ty, htypeOptUntyped] using hty

theorem visitSelectList_inv {v : Visitor} (hv : VisitorNoRerun v) :
    ∀ (es : List Expr) (s : RState), StateInv s → exprListUntyped es = true →
    GuardSafe (visitSelectList v s es) (fun p => StateInv p.2 ∧ tysListSafe p.1 = true) := by
  intro es
  induction es with
  | nil => intro s hs _; exact GuardSafe.ok ⟨hs, rfl⟩
  | cons e rest ih =>
    intro s hs hu
    simp only [exprListUntyped, Bool.and_eq_true] at hu
    simp only [visitSelectList]
    refine GuardSafe.bind (visitor_gs hv hs hu.1) ?_
    intro p hp
    obtain ⟨e', s'⟩ := p
    split
    · rename_i tt heq
      refine GuardSafe.bind (asterisk_columns_gs tt) ?_
      intro columns hcols
      refine GuardSafe.bind (visitListWith_inv hv columns s' hp.1 hcols) ?_
      intro q hq
      obtain ⟨cols', s₁⟩ := q
      refine GuardSafe.bind (ih s₁ hq.1 hu.2) ?_
      intro r hr
      obtain ⟨rest', s₂⟩ := r
      exact GuardSafe.ok ⟨hr.1, tysListSafe_append hq.2 hr.2⟩
    · refine GuardSafe.bind (ih s' hp.1 hu.2) ?_
      intro r hr
      obtain ⟨rest', s₂⟩ := r
      refine GuardSafe.ok ⟨hr.1, ?_⟩
      simp only [tysListSafe, Bool.and_eq_true]
      exact ⟨hp.2, hr.2⟩

theorem visit_select_query_inv {v : Visitor} (hv : VisitorNoRerun v) (s : RState)
    (sd : SelectData) (hs : StateInv s) (hu : selectDataUntyped sd = true) :
    GuardSafe (visit_select_query v s sd) VOut := by
  obtain ⟨ctes, sel, selFrom, whereE, viewName⟩ := sd
  simp only [selectDataUntyped, Bool.and_eq_true] at hu
  obtain ⟨⟨⟨hctes, hsel⟩, hfrom⟩, hwhere⟩ := hu
  simp only [visit_select_query, SelectData.ctes, SelectData.select, SelectData.selectFrom,
    SelectData.whereE, SelectData.viewName]
  refine GuardSafe.bind (visitOptWith_inv hv _ selFrom (StateInv_push hs ?_) hfrom) ?_
  · cases ctes with
    | none => rfl
    | some cs =>
      show scopeUntyped (SelectScope.mk [] [] [] [] cs) = true
      simpa [scopeUntyped, pairsHTypeUntyped, colsPairsUntyped, htypeListUntyped,
        cteListOptUntyped] using hctes
  intro p hp
  obtain ⟨selectFrom', s₁⟩ := p
  refine GuardSafe.bind (visitSelectList_inv hv sel s₁ hp hsel) ?_
  intro q hq
  obtain ⟨selectNodes, s₂⟩ := q
  rcases hrc : registerColumns selectNodes with ⟨cols, vis⟩
  have hcols : colsPairsUntyped cols = true := by
    have h0 := registerColumns_cols hq.2
    rw [hrc] at h0
    exact h0
  refine GuardSafe.bind (visitOptWith_inv hv _ whereE
    (StateInv_updateTop hq.1 (fun sc hsc => scopeUntyped_setColumns hsc hcols)) hwhere) ?_
  intro r hr
  obtain ⟨where', s₄⟩ := r
  split
  · rename_i scope rest heq
    refine GuardSafe.ok ⟨?_, ?_⟩
    · obtain ⟨h1, h2, h3⟩ := hr
      rw [heq] at h1
      simp only [scopesUntyped, Bool.and_eq_true] at h1
      exact ⟨h1.2, h2, h3⟩
    · obtain ⟨h1, _, _⟩ := hr
      rw [heq] at h1
      simp only [scopesUntyped, Bool.and_eq_true] at h1
      simpa [Expr.ty, htypeOptUntyped, htypeUntyped] using h1.1
  · exact @GuardSafe.errRes _ "scope stack underflow" 's' rfl (by decide) _

theorem visit_field_tail_inv (n : Nat) {v : Visitor} (hv : VisitorNoRerun v) (s : RState)
    (start stop : Option Nat) (chain : List String) (seed : HType)
    (hs : StateInv s) (hseed : htypeUntyped seed = true) :
    GuardSafe (visit_field_tail n v s start stop chain seed) VOut := by
  simp only [visit_field_tail]
  refine GuardSafe.bind (chainLoop_gs chain n seed chain.tail [] hseed rfl) ?_
  intro finalType hft
  split
  · refine visitor_gs hv hs ?_
    simp only [htypeUntyped, Bool.and_eq_true] at hft
    simp [exprUntyped, hft.1]
  · split
    · cases start with
      | none => exact GuardSafe.ok ⟨hs, by simpa [Expr.ty, htypeOptUntyped, htypeUntyped] using hft⟩
      | some a =>
        cases stop with
        | none => exact GuardSafe.ok ⟨hs, by simpa [Expr.ty, htypeOptUntyped, htypeUntyped] using hft⟩
        | some b =>
          exact GuardSafe.ok ⟨StateInv_addNotice hs _ _ _,
            by simpa [Expr.ty, htypeOptUntyped, htypeUntyped] using hft⟩
    · cases start with
      | none => exact GuardSafe.ok ⟨hs, by simpa [Expr.ty, htypeOptUntyped, htypeUntyped] using hft⟩
      | some a =>
        cases stop with
        | none => exact GuardSafe.ok ⟨hs, by simpa [Expr.ty, htypeOptUntyped, htypeUntyped] using hft⟩
        | some b => exact GuardSafe.ok ⟨hs, by simpa [Expr.ty, htypeOptUntyped, htypeUntyped] using hft⟩
    · split
      · exact GuardSafe.ok ⟨StateInv_addNotice hs _ _ _,
          by simpa [Expr.ty, htypeOptUntyped] using hft⟩
      · exact GuardSafe.ok ⟨hs, by simpa [Expr.ty, htypeOptUntyped] using hft⟩

theorem visit_field_inv (n : Nat) {v : Visitor} (hv : VisitorNoRerun v) (s : RState)
    (start stop : Option Nat) (chain : List String) (hs : StateInv s) :
    GuardSafe (visit_field n v s start stop chain) VOut := by
  rw [visit_field.eq_def]
  split
  · exact @GuardSafe.errRes _ "Invalid field access with empty chain" 'I' rfl (by decide) _
  · rename_i c0 rest
    split
    · exact GuardSafe.errIdx _
    · rename_i scope rest2 hsc
      have hscu : scopeUntyped scope = true := by
        have h1 := hs.1
        rw [hsc] at h1
        simp only [scopesUntyped, Bool.and_eq_true] at h1
        exact h1.1
      obtain ⟨hals, hcls, htbs, hans, hcts⟩ := scopeUntyped_parts scope hscu
      refine @GuardSafe.bind _ _ _ _ (fun ot => htypeOptUntyped ot = true) _ ?_ ?_
      · split
        · simp only []
          split
          · exact GuardSafe.errQ _ _
          · split
            · exact GuardSafe.errQ _ _
            · refine GuardSafe.ok ?_
              simp only [htypeOptUntyped, htypeUntyped]
              split
              · rename_i head tail heq
                have h2 := hans
                rw [heq] at h2
                simp only [htypeListUntyped, Bool.and_eq_true] at h2
                exact h2.1
              · rename_i k t2 tail heqa heqt
                have h2 := htbs
                rw [heqt] at h2
                simp only [pairsHTypeUntyped, Bool.and_eq_true] at h2
                exact h2.1
              · rfl
        · refine GuardSafe.ok ?_
          split
          · rfl
          · cases hl : lookupPair scope.tables c0 with
            | none => rfl
            | some t => simpa [htypeOptUntyped] using lookupPair_pairsHType htbs hl
      · intro type₂ h₂
        refine @GuardSafe.bind _ _ _ _ (fun ot => htypeOptUntyped ot = true) _ ?_ ?_
        · split
          · exact lookup_field_gs scope c0 hscu
          · exact GuardSafe.ok h₂
        · intro type₃ h₃
          split
          · rename_i t
            exact visit_field_tail_inv n hv s start stop (c0 :: rest) t hs
              (by simpa [htypeOptUntyped] using h₃)
          · split
            · rename_i cte hcte
              split
              · exact GuardSafe.errQ _ _
              · split
                · exact GuardSafe.ok ⟨hs, rfl⟩
                · refine GuardSafe.bind (visitor_gs hv (StateInv_setCtr hs _)
                    (lookup_cte_untyped s.scopes c0 hs.1 hcte)) ?_
                  intro p hp
                  obtain ⟨response, s₂⟩ := p
                  exact GuardSafe.ok ⟨StateInv_setCtr hp.1 _, hp.2⟩
            · split
              · exact GuardSafe.errQ _ _
              · exact visit_field_tail_inv n hv _ start stop (c0 :: rest)
                  (.unresolvedFieldT c0) (StateInv_addError hs _ _ _) rfl

theorem visit_join_expr_inv {v : Visitor} (hv : VisitorNoRerun v) (s : RState) (jd : JoinData)
    (hs : StateInv s) (hu : joinDataUntyped jd = true) :
    GuardSafe (visit_join_expr v s jd) VOut := by
  obtain ⟨table, al, jt, nj, constr⟩ := jd
  simp only [joinDataUntyped, Bool.and_eq_true] at hu
  obtain ⟨⟨htab, hnj⟩, hcon⟩ := hu
  rw [visit_join_expr.eq_def]
  simp only [JoinData.table, JoinData.al, JoinData.joinType, JoinData.nextJoin,
    JoinData.constraint]
  split
  · exact GuardSafe.errA _ _
  · rename_i scope rest hsc
    split
    · rename_i ty0 fst fen tchain
      split
      · rename_i tname cte hcte
        simp only [] at hcte
        refine GuardSafe.bind (visitor_gs hv (StateInv_setCtr hs _) ?_) ?_
        · simp [exprUntyped, joinDataUntyped, lookup_cte_untyped s.scopes tname hs.1 hcte,
            hnj, hcon]
        · intro p hp
          obtain ⟨response, s₂⟩ := p
          exact GuardSafe.ok ⟨StateInv_setCtr hp.1 _, hp.2⟩
      · split
        · exact GuardSafe.errIdx _
        · rename_i tableName trest heqc
          split
          · exact GuardSafe.errQ _ _
          · split
            · exact GuardSafe.errQ _ _
            · rename_i databaseTable hdb
              have hdbu : dbTableUntyped databaseTable = true := by
                simp only [Database.get_table] at hdb
                exact lookupPair_tablePairs hs.2.1 hdb
              have hntt : htypeUntyped
                  (if databaseTable.isLazy then HType.lazyTableT databaseTable
                   else HType.tableT databaseTable) = true := by
                split <;> simpa [htypeUntyped] using hdbu
              have hnt : htypeUntyped
                  (if orTableName al tableName != tableName || databaseTable.isFunctionCall then
                     HType.tableAliasT (orTableName al tableName)
                       (if databaseTable.isLazy then HType.lazyTableT databaseTable
                        else HType.tableT databaseTable)
                   else
                     (if databaseTable.isLazy then HType.lazyTableT databaseTable
                      else HType.tableT databaseTable)) = true := by
                split
                · simpa [htypeUntyped] using hntt
                · exact hntt
              refine GuardSafe.bind (visitConstraintIf_using_inv hv s constr hs hcon) ?_
              intro p hp
              obtain ⟨constraint₁, s₁⟩ := p
              refine GuardSafe.bind (visitOptWith_inv hv _ nj
                (StateInv_updateTop hp.1 (fun sc hsc2 => scopeUntyped_setTables hsc2
                  (setPair_pairsHType (scopeUntyped_parts sc hsc2).2.2.1 hnt))) hnj) ?_
              intro q hq
              obtain ⟨nextJoin₁, s₃⟩ := q
              refine GuardSafe.bind (visitConstraintIf_on_inv hv s₃ constraint₁ hq hp.2) ?_
              intro r hr
              obtain ⟨constraint₂, s₄⟩ := r
              exact GuardSafe.ok ⟨hr, by simpa [Expr.ty, htypeOptUntyped] using hnt⟩
    · rename_i ty0 sdt
      simp only [exprUntyped, Bool.and_eq_true] at htab
      refine GuardSafe.bind (visitConstraintIf_using_inv hv s constr hs hcon) ?_
      intro p hp
      obtain ⟨constraint₁, s₁⟩ := p
      refine GuardSafe.bind (visit_select_query_inv hv s₁ sdt hp.1 htab.2) ?_
      intro q hq
      obtain ⟨table', s₂⟩ := q
      refine @GuardSafe.bind _ _ _ _
        (fun pr => StateInv pr.2 ∧ htypeOptUntyped pr.1 = true) _ ?_ ?_
      · split
        · split
          · exact GuardSafe.errQ _ _
          · refine GuardSafe.ok ⟨?_, ?_⟩
            · exact StateInv_updateTop hq.1 (fun sc hsc2 => scopeUntyped_setTables hsc2
                (setPair_pairsHType (scopeUntyped_parts sc hsc2).2.2.1
                  (by simpa [htypeUntyped] using htypeOptUntyped_tyD hq.2)))
            · simpa [htypeOptUntyped, htypeUntyped] using htypeOptUntyped_tyD hq.2
        · split
          · exact GuardSafe.errQ _ _
          · refine GuardSafe.ok ⟨?_, ?_⟩
            · exact StateInv_updateTop hq.1 (fun sc hsc2 => scopeUntyped_setTables hsc2
                (setPair_pairsHType (scopeUntyped_parts sc hsc2).2.2.1
                  (by simpa [htypeUntyped] using htypeOptUntyped_tyD hq.2)))
            · simpa [htypeOptUntyped, htypeUntyped] using htypeOptUntyped_tyD hq.2
        · refine GuardSafe.ok ⟨?_, hq.2⟩
          exact StateInv_updateTop hq.1 (fun sc hsc2 => scopeUntyped_setAnonymousTables hsc2
            (htypeListUntyped_append (scopeUntyped_parts sc hsc2).2.2.2.1
              (by simp [htypeListUntyped, htypeOptUntyped_tyD hq.2])))
      · intro r hr
        obtain ⟨tyOut, s₃⟩ := r
        refine GuardSafe.bind (visitOptWith_inv hv _ nj hr.1 hnj) ?_
        intro w hw
        obtain ⟨nextJoin', s₄⟩ := w
        refine GuardSafe.bind (visitConstraintIf_on_inv hv s₄ constraint₁ hw hp.2) ?_
        intro z hz
        obtain ⟨constraint₂, s₅⟩ := z
        exact GuardSafe.ok ⟨hz, by simpa [Expr.ty, htypeOptUntyped] using hr.2⟩
    · exact GuardSafe.errQ _ _

theorem visitDispatch_inv (n : Nat) {v : Visitor} (hv : VisitorNoRerun v) (s : RState)
    (e : Expr) (hs : StateInv s) (he : exprUntyped e = true) :
    GuardSafe (visitDispatch n v s e) VOut := by
  cases e with
  | constant ty value =>
    simp only [visitDispatch]
    exact visit_constant_inv s value hs
  | field ty start stop chain =>
    simp only [visitDispatch]
    exact visit_field_inv n hv s start stop chain hs
  | aliasE ty al ex hidden =>
    simp only [visitDispatch]
    simp only [exprUntyped, Bool.and_eq_true] at he
    exact visit_alias_inv hv s al ex hidden hs he.2
  | andE ty es =>
    simp only [visitDispatch]
    simp only [exprUntyped, Bool.and_eq_true] at he
    exact visit_and_inv hv s es hs he.2
  | orE ty es =>
    simp only [visitDispatch]
    simp only [exprUntyped, Bool.and_eq_true] at he
    exact visit_or_inv hv s es hs he.2
  | notE ty ex =>
    simp only [visitDispatch]
    simp only [exprUntyped, Bool.and_eq_true] at he
    exact visit_not_inv hv s ex hs he.2
  | compareE ty op l r =>
    simp only [visitDispatch]
    simp only [exprUntyped, Bool.and_eq_true] at he
    exact visit_compare_operation_inv hv s op l r hs he.1.2 he.2
  | selectQ ty sd =>
    simp only [visitDispatch]
    simp only [exprUntyped, Bool.and_eq_true] at he
    exact visit_select_query_inv hv s sd hs he.2
  | joinE ty jd =>
    simp only [visitDispatch]
    simp only [exprUntyped, Bool.and_eq_true] at he
    exact visit_join_expr_inv hv s jd hs he.2

/-- The per-fuel master induction: every `visit n` is a `VisitorNoRerun`. -/
theorem visit_norerun : ∀ n, VisitorNoRerun (visit n) := by
  intro n
  induction n with
  | zero =>
    intro s e hs he
    constructor
    · intro a b h
      simp [visit] at h
    · intro e' s' h
      simp [visit] at h
  | succ m ih =>
    intro s e hs he
    have hty : e.ty = Option.none := exprUntyped_ty_none he
    have hgs : GuardSafe (visit (m + 1) s e) VOut := by
      simp only [visit, hty]
      split
      · exact GuardSafe.errQ _ _
      · exact visitDispatch_inv m ih s e hs he
    exact ⟨hgs.1, fun e' s' h => hgs.2 (e', s') h⟩

/-- C2 counterexample: re-visiting an already-typed constant does fail with
the "Type already resolved" message, but the failure is a `ResolutionError`
(resolver.py lines 96-98), not the `ImpossibleAST` classification the spec's
error taxonomy assigns to "re-resolving a typed node". -/
theorem claim_C2_counterexample :
    visit 1 sampleState (.constant (some (.constT .integer)) (.int 1))
      = .error (.resolutionError
          "Type already resolved for Constant (IntegerType). Can't run again.") := rfl

/-- C2 (amended): `Resolver.visit` on a node whose `type` is already non-null
fails with the `ResolutionError` "Type already resolved for <node class>
(<type class>). Can't run again." — a `ResolutionError`, where the spec's
taxonomy files re-resolution of a typed node under `ImpossibleAST`; and over
any state satisfying the resolver invariant (untyped scopes and catalog, an
untypedness-preserving cohort expander), visiting a fully untyped tree never
produces that error, so a fresh untyped clone of the same tree resolves
without it. -/
theorem claim_C2_rerun_guard :
    (∀ (n : Nat) (s : RState) (e : Expr) (t : HType), e.ty = some t →
      visit (n + 1) s e
        = .error (.resolutionError (alreadyResolvedMsg e.className t.className))) ∧
    (∀ (n : Nat) (s : RState) (e : Expr), StateInv s → exprUntyped e = true →
      ∀ a b, visit n s e ≠ .error (.resolutionError (alreadyResolvedMsg a b))) := by
  constructor
  · intro n s e t hty
    simp [visit, hty]
  · intro n s e hs he a b
    exact ((visit_norerun n) s e hs he).1 a b

/-- Witness for C2: the typed-node conjunct applied at a concrete typed
constant, and the untyped-tree conjunct applied at a concrete untyped
constant over the sample state (whose invariant is discharged concretely). -/
theorem claim_C2_rerun_guard_witness :
    visit 1 sampleState (.constant (some (.constT .integer)) (.int 1))
      = .error (.resolutionError (alreadyResolvedMsg "Constant" "IntegerType"))
    ∧ ∀ a b, visit 3 sampleState (.constant Option.none (.int 1))
      ≠ .error (.resolutionError (alreadyResolvedMsg a b)) :=
  ⟨claim_C2_rerun_guard.1 0 sampleState (.constant (some (.constT .integer)) (.int 1))
      (.constT .integer) rfl,
   claim_C2_rerun_guard.2 3 sampleState (.constant Option.none (.int 1))
      ⟨rfl, rfl, fun _ h => h⟩ rfl⟩
